import Mathlib

/-!
Verification development for a recursive ray tracer written in Rust.

The embedding models the source's `f64` scalars by exact rational numbers,
represented as fractions of machine-unbounded integers kept in lowest terms
(`F` below).
All geometric kernels, the shading pipeline, the canvas serializer, the OBJ
face handling and the CSG filter are translated from the source files; a few
places where the source snapshot predates the modules that call it are
reconstructed from the specification and are marked as such in doc comments.

Floating-point rounding itself is not modelled: every arithmetic step is
exact.  Square roots are modelled by an exact integer bisection that agrees
with the real square root whenever the argument is the square of a rational,
which holds in every concrete evaluation performed here.  IEEE special values
(NaN, infinities) are modelled only where the source manipulates genuinely
infinite extents (bounding boxes and cylinder/cone truncation), via the
extended scalar `XF`.
-/

set_option maxRecDepth 100000
set_option maxHeartbeats 6400000

namespace RT

/-- Scalar model of `f64`: an exact fraction in lowest terms with a positive
denominator, both held by construction.  An IEEE special value (NaN or an
infinity produced by dividing by zero) is modelled as the junk value `0/1`;
every code path translated below guards divisions exactly as the source
does, so the junk value never feeds a verified conclusion. -/
structure F where
  n : Int
  d : Int
  pos : 0 < d

/-- Build a scalar from a numerator and a positive denominator, cancelling
the greatest common divisor so magnitudes stay bounded. -/
def F.mk' (n d : Int) (hd : 0 < d) : F :=
  let g : Nat := n.natAbs.gcd d.natAbs
  have hg : 0 < (g : Int) := by
    have h1 : 0 < d.natAbs := Int.natAbs_pos.mpr (ne_of_gt hd)
    exact_mod_cast Nat.gcd_pos_of_pos_right n.natAbs h1
  have hdvd : (g : Int) ∣ d := Int.natCast_dvd.mpr (Nat.gcd_dvd_right _ _)
  ⟨n / g, d / g, by
    obtain ⟨k, hk⟩ := hdvd
    have hk2 : d / (g:Int) = k := by rw [hk]; exact Int.mul_ediv_cancel_left k (ne_of_gt hg)
    rw [hk2]
    nlinarith [hk, hd, hg]⟩

/-- Embed an integer literal. -/
def F.ofInt (i : Int) : F := ⟨i, 1, one_pos⟩

instance : OfNat F k := ⟨F.ofInt k⟩

instance instFNeg : Neg F := ⟨fun a => ⟨-a.n, a.d, a.pos⟩⟩

/-- Addition of fractions. -/
def F.add (a b : F) : F :=
  F.mk' (a.n * b.d + b.n * a.d) (a.d * b.d) (mul_pos a.pos b.pos)

/-- Subtraction of fractions. -/
def F.sub (a b : F) : F :=
  F.mk' (a.n * b.d - b.n * a.d) (a.d * b.d) (mul_pos a.pos b.pos)

/-- Multiplication of fractions. -/
def F.mul (a b : F) : F := F.mk' (a.n * b.n) (a.d * b.d) (mul_pos a.pos b.pos)

/-- Division; the sign moves into the numerator so the denominator stays
positive.  Division by zero yields the junk value standing in for an IEEE
special value. -/
def F.div (a b : F) : F :=
  if h : 0 < b.n then F.mk' (a.n * b.d) (a.d * b.n) (mul_pos a.pos h)
  else if h2 : b.n < 0 then
    F.mk' (-(a.n * b.d)) (a.d * (-b.n)) (mul_pos a.pos (by omega))
  else ⟨0, 1, one_pos⟩

instance instFAdd : Add F := ⟨F.add⟩
instance instFSub : Sub F := ⟨F.sub⟩
instance instFMul : Mul F := ⟨F.mul⟩
instance instFDiv : Div F := ⟨F.div⟩

/-- Absolute value (`f64::abs`). -/
def F.abs (a : F) : F := ⟨|a.n|, a.d, a.pos⟩

/-- Strict comparison by cross multiplication; sound because denominators
are positive. -/
def F.blt (a b : F) : Bool := a.n * b.d < b.n * a.d

/-- Non-strict comparison by cross multiplication. -/
def F.ble (a b : F) : Bool := a.n * b.d ≤ b.n * a.d

/-- Semantic equality test by cross multiplication. -/
def F.beq (a b : F) : Bool := a.n * b.d == b.n * a.d

/-- Integer power (`f64::powi` with a nonnegative exponent); a power of a
fraction in lowest terms is already in lowest terms. -/
def F.powi (a : F) (k : Nat) : F := ⟨a.n ^ k, a.d ^ k, pow_pos a.pos k⟩

/-- Floor (`f64::floor`); `Int` division in Lean with Mathlib is Euclidean,
which is the floor for positive denominators. -/
def F.floor (a : F) : Int := a.n / a.d

/-- Rounding half away from zero (`f64::round`). -/
def F.round (a : F) : Int :=
  if 0 ≤ a.n then (2 * a.n + a.d) / (2 * a.d)
  else -((2 * (-a.n) + a.d) / (2 * a.d))

/-- Integer square root by bisection with structural fuel, so that it
evaluates inside the kernel.  `isqrtAux fuel lo hi n` maintains
`lo^2 <= n < hi^2` and the fuel of 600 covers every integer below
`2^600`. -/
def isqrtAux : Nat → Nat → Nat → Nat → Nat
  | 0, lo, _, _ => lo
  | fuel + 1, lo, hi, n =>
      if hi ≤ lo + 1 then lo
      else
        let mid := (lo + hi) / 2
        if mid * mid ≤ n then isqrtAux fuel mid hi n else isqrtAux fuel lo mid n

/-- Integer square root (round-down). -/
def isqrt (n : Nat) : Nat := isqrtAux 600 0 (n + 1) n

/-- Model of `f64::sqrt`: for a fraction `p^2 / q^2` in lowest terms the
result is exactly `p / q` (the case in every concrete evaluation below),
and the floor of the square root of `n * d` over `d` otherwise; a negative
argument produces the junk value standing in for NaN. -/
def F.sqrt (a : F) : F :=
  if a.n < 0 then ⟨0, 1, one_pos⟩
  else F.mk' (Int.ofNat (isqrt (a.n.toNat * a.d.toNat))) a.d a.pos

/-- The fixed tolerance `EPSILON = 1e-5` from the source. -/
def EPSILON : F := ⟨1, 100000, by norm_num⟩

/-- Translation of the free function `near_eq(a, b)`: true when
`|a - b| < EPSILON`. -/
def near_eq (a b : F) : Bool := F.blt (F.abs (F.sub a b)) EPSILON

/-- Rational denotation of a scalar. -/
def F.toRat (a : F) : ℚ := (a.n : ℚ) / (a.d : ℚ)

/-! ## Tuples, colors, rays (src/tuple.rs, src/color.rs, src/ray.rs) -/

/-- Translation of `Tuple` from src/tuple.rs: four scalars; `w = 1` marks a
point and `w = 0` a vector. -/
structure Tuple where
  x : F
  y : F
  z : F
  w : F

/-- Translation of `Tuple::point`. -/
def Tuple.point (x y z : F) : Tuple := ⟨x, y, z, 1⟩

/-- Translation of `Tuple::vector`. -/
def Tuple.vector (x y z : F) : Tuple := ⟨x, y, z, 0⟩

/-- Translation of the `Add` impl for `Tuple`. -/
def Tuple.add (a b : Tuple) : Tuple := ⟨a.x + b.x, a.y + b.y, a.z + b.z, a.w + b.w⟩

/-- Translation of the `Sub` impl for `Tuple`. -/
def Tuple.sub (a b : Tuple) : Tuple := ⟨a.x - b.x, a.y - b.y, a.z - b.z, a.w - b.w⟩

/-- Translation of the `Neg` impl for `Tuple`. -/
def Tuple.neg (a : Tuple) : Tuple := ⟨-a.x, -a.y, -a.z, -a.w⟩

/-- Translation of the `Mul<f64>` impl for `Tuple` (componentwise scaling). -/
def Tuple.mulS (a : Tuple) (s : F) : Tuple := ⟨a.x * s, a.y * s, a.z * s, a.w * s⟩

/-- Translation of the `Div<f64>` impl for `Tuple`. -/
def Tuple.divS (a : Tuple) (s : F) : Tuple := ⟨a.x / s, a.y / s, a.z / s, a.w / s⟩

/-- Translation of `Tuple::dot`. -/
def Tuple.dot (a b : Tuple) : F := a.x * b.x + a.y * b.y + a.z * b.z + a.w * b.w

/-- Translation of `Tuple::cross`; the result is a vector. -/
def Tuple.cross (a b : Tuple) : Tuple :=
  Tuple.vector (a.y * b.z - a.z * b.y) (a.z * b.x - a.x * b.z) (a.x * b.y - a.y * b.x)

/-- Translation of `Tuple::magnitude`. -/
def Tuple.magnitude (a : Tuple) : F :=
  F.sqrt (a.x.powi 2 + a.y.powi 2 + a.z.powi 2 + a.w.powi 2)

/-- Translation of `Tuple::normalize` (each component divided by the
magnitude, which is recomputed per component in the source). -/
def Tuple.normalize (a : Tuple) : Tuple :=
  ⟨a.x / a.magnitude, a.y / a.magnitude, a.z / a.magnitude, a.w / a.magnitude⟩

/-- Modelled from the spec: `Tuple::reflect`, which the snapshot of
src/tuple.rs does not yet contain although src/material.rs and
src/intersection.rs call it.  Spec section 3: `reflect(normal) =
self - normal * 2 * (self . normal)`. -/
def Tuple.reflect (a normal : Tuple) : Tuple :=
  a.sub (normal.mulS (F.ofInt 2 * a.dot normal))

/-- Translation of the `PartialEq` impl for `Tuple` (near equality on every
component). -/
def Tuple.beq (a b : Tuple) : Bool :=
  near_eq a.x b.x && near_eq a.y b.y && near_eq a.z b.z && near_eq a.w b.w

/-- The constant `ORIGIN` from src/lib.rs. -/
def ORIGIN : Tuple := Tuple.point 0 0 0

/-- Translation of `Color` from src/color.rs. -/
structure Color where
  red : F
  green : F
  blue : F

/-- Translation of the `Add` impl for `Color`. -/
def Color.add (a b : Color) : Color := ⟨a.red + b.red, a.green + b.green, a.blue + b.blue⟩

/-- Translation of the `Sub` impl for `Color`. -/
def Color.sub (a b : Color) : Color := ⟨a.red - b.red, a.green - b.green, a.blue - b.blue⟩

/-- Translation of the `Mul<f64>` impl for `Color`. -/
def Color.mulS (a : Color) (s : F) : Color := ⟨a.red * s, a.green * s, a.blue * s⟩

/-- Translation of the Hadamard-product `Mul` impl for `Color`. -/
def Color.mul (a b : Color) : Color := ⟨a.red * b.red, a.green * b.green, a.blue * b.blue⟩

/-- Translation of the `PartialEq` impl for `Color`. -/
def Color.beq (a b : Color) : Bool :=
  near_eq a.red b.red && near_eq a.green b.green && near_eq a.blue b.blue

/-- The constant `BLACK` from src/lib.rs. -/
def BLACK : Color := ⟨0, 0, 0⟩

/-- The constant `WHITE` from src/lib.rs. -/
def WHITE : Color := ⟨1, 1, 1⟩

/-- The constant `DEFAULT_RECURSION = 5` from src/lib.rs. -/
def DEFAULT_RECURSION : Nat := 5

/-! ## Matrices (src/matrix.rs)

The source `Matrix` is dynamically sized; the core only ever builds 4x4
matrices (and their 3x3/2x2 submatrices during cofactor expansion), so the
embedding specializes the size-generic code to those three sizes.  Each
definition below is the body of the corresponding src/matrix.rs method with
the loops unrolled for the fixed size. -/

/-- A row of four scalars. -/
structure V4 where
  c0 : F
  c1 : F
  c2 : F
  c3 : F

/-- A row of three scalars. -/
structure V3 where
  c0 : F
  c1 : F
  c2 : F

/-- A row of two scalars. -/
structure V2 where
  c0 : F
  c1 : F

/-- A 4x4 matrix as four rows. -/
structure M4 where
  r0 : V4
  r1 : V4
  r2 : V4
  r3 : V4

/-- A 3x3 matrix as three rows. -/
structure M3 where
  r0 : V3
  r1 : V3
  r2 : V3

/-- A 2x2 matrix as two rows. -/
structure M2 where
  r0 : V2
  r1 : V2

/-- Entry access `m[i][j]` for statements about a 4x4 matrix. -/
def M4.entry (m : M4) (i j : Fin 4) : F :=
  let row := match i with
    | 0 => m.r0
    | 1 => m.r1
    | 2 => m.r2
    | 3 => m.r3
  match j with
  | 0 => row.c0
  | 1 => row.c1
  | 2 => row.c2
  | 3 => row.c3

/-- Remove one column from a row of four (the inner loop of
`Matrix::submatrix`). -/
def V4.dropAt (v : V4) : Fin 4 → V3
  | 0 => ⟨v.c1, v.c2, v.c3⟩
  | 1 => ⟨v.c0, v.c2, v.c3⟩
  | 2 => ⟨v.c0, v.c1, v.c3⟩
  | 3 => ⟨v.c0, v.c1, v.c2⟩

/-- Remove one column from a row of three. -/
def V3.dropAt (v : V3) : Fin 3 → V2
  | 0 => ⟨v.c1, v.c2⟩
  | 1 => ⟨v.c0, v.c2⟩
  | 2 => ⟨v.c0, v.c1⟩

/-- Translation of `Matrix::submatrix` for a 4x4 matrix: drop row
`row_to_remove` and column `column_to_remove`. -/
def M4.submatrix (m : M4) (r c : Fin 4) : M3 :=
  match r with
  | 0 => ⟨m.r1.dropAt c, m.r2.dropAt c, m.r3.dropAt c⟩
  | 1 => ⟨m.r0.dropAt c, m.r2.dropAt c, m.r3.dropAt c⟩
  | 2 => ⟨m.r0.dropAt c, m.r1.dropAt c, m.r3.dropAt c⟩
  | 3 => ⟨m.r0.dropAt c, m.r1.dropAt c, m.r2.dropAt c⟩

/-- Translation of `Matrix::submatrix` for a 3x3 matrix. -/
def M3.submatrix (m : M3) (r c : Fin 3) : M2 :=
  match r with
  | 0 => ⟨m.r1.dropAt c, m.r2.dropAt c⟩
  | 1 => ⟨m.r0.dropAt c, m.r2.dropAt c⟩
  | 2 => ⟨m.r0.dropAt c, m.r1.dropAt c⟩

/-- Translation of the 2x2 base case of `Matrix::determinant`. -/
def M2.determinant (m : M2) : F :=
  m.r0.c0 * m.r1.c1 - m.r0.c1 * m.r1.c0

/-- Translation of `Matrix::minor` at size 3. -/
def M3.minor (m : M3) (r c : Fin 3) : F := (m.submatrix r c).determinant

/-- Translation of `Matrix::cofactor` at size 3: negate the minor when
`(row + column) % 2 == 1`. -/
def M3.cofactor (m : M3) (r c : Fin 3) : F :=
  if (r.val + c.val) % 2 == 1 then -(m.minor r c) else m.minor r c

/-- Translation of `Matrix::determinant` at size 3: cofactor expansion along
row 0. -/
def M3.determinant (m : M3) : F :=
  m.r0.c0 * m.cofactor 0 0 + m.r0.c1 * m.cofactor 0 1 + m.r0.c2 * m.cofactor 0 2

/-- Translation of `Matrix::minor` at size 4. -/
def M4.minor (m : M4) (r c : Fin 4) : F := (m.submatrix r c).determinant

/-- Translation of `Matrix::cofactor` at size 4. -/
def M4.cofactor (m : M4) (r c : Fin 4) : F :=
  if (r.val + c.val) % 2 == 1 then -(m.minor r c) else m.minor r c

/-- Translation of `Matrix::determinant` at size 4: cofactor expansion along
row 0. -/
def M4.determinant (m : M4) : F :=
  m.r0.c0 * m.cofactor 0 0 + m.r0.c1 * m.cofactor 0 1 +
    m.r0.c2 * m.cofactor 0 2 + m.r0.c3 * m.cofactor 0 3

/-- The matrix-entry loop of `Matrix::inverse`:
`inverse[column][row] = cofactor(row, column) / determinant`. -/
def M4.inverseCore (m : M4) : M4 :=
  let d := m.determinant
  ⟨⟨m.cofactor 0 0 / d, m.cofactor 1 0 / d, m.cofactor 2 0 / d, m.cofactor 3 0 / d⟩,
   ⟨m.cofactor 0 1 / d, m.cofactor 1 1 / d, m.cofactor 2 1 / d, m.cofactor 3 1 / d⟩,
   ⟨m.cofactor 0 2 / d, m.cofactor 1 2 / d, m.cofactor 2 2 / d, m.cofactor 3 2 / d⟩,
   ⟨m.cofactor 0 3 / d, m.cofactor 1 3 / d, m.cofactor 2 3 / d, m.cofactor 3 3 / d⟩⟩

/-- Translation of `Matrix::identity(4)`. -/
def identity4 : M4 :=
  ⟨⟨1, 0, 0, 0⟩, ⟨0, 1, 0, 0⟩, ⟨0, 0, 1, 0⟩, ⟨0, 0, 0, 1⟩⟩

/-- Translation of `Matrix::transpose` for the 4x4 case. -/
def M4.transpose (m : M4) : M4 :=
  ⟨⟨m.r0.c0, m.r1.c0, m.r2.c0, m.r3.c0⟩,
   ⟨m.r0.c1, m.r1.c1, m.r2.c1, m.r3.c1⟩,
   ⟨m.r0.c2, m.r1.c2, m.r2.c2, m.r3.c2⟩,
   ⟨m.r0.c3, m.r1.c3, m.r2.c3, m.r3.c3⟩⟩

/-- One entry of the `Mul` impl for `Matrix` (dot product of a row of the
first factor with a column of the second). -/
def mulRC (r : V4) (b : M4) (j : Fin 4) : F :=
  match j with
  | 0 => r.c0 * b.r0.c0 + r.c1 * b.r1.c0 + r.c2 * b.r2.c0 + r.c3 * b.r3.c0
  | 1 => r.c0 * b.r0.c1 + r.c1 * b.r1.c1 + r.c2 * b.r2.c1 + r.c3 * b.r3.c1
  | 2 => r.c0 * b.r0.c2 + r.c1 * b.r1.c2 + r.c2 * b.r2.c2 + r.c3 * b.r3.c2
  | 3 => r.c0 * b.r0.c3 + r.c1 * b.r1.c3 + r.c2 * b.r2.c3 + r.c3 * b.r3.c3

/-- Translation of the `Mul` impl for `Matrix` (the classical triple loop,
unrolled for 4x4). -/
def M4.mul (a b : M4) : M4 :=
  ⟨⟨mulRC a.r0 b 0, mulRC a.r0 b 1, mulRC a.r0 b 2, mulRC a.r0 b 3⟩,
   ⟨mulRC a.r1 b 0, mulRC a.r1 b 1, mulRC a.r1 b 2, mulRC a.r1 b 3⟩,
   ⟨mulRC a.r2 b 0, mulRC a.r2 b 1, mulRC a.r2 b 2, mulRC a.r2 b 3⟩,
   ⟨mulRC a.r3 b 0, mulRC a.r3 b 1, mulRC a.r3 b 2, mulRC a.r3 b 3⟩⟩

/-- Translation of the `Mul<Tuple>` impl for `Matrix`: the tuple becomes a
4x1 column, is multiplied, and is read back as a tuple. -/
def M4.mulT (m : M4) (t : Tuple) : Tuple :=
  ⟨m.r0.c0 * t.x + m.r0.c1 * t.y + m.r0.c2 * t.z + m.r0.c3 * t.w,
   m.r1.c0 * t.x + m.r1.c1 * t.y + m.r1.c2 * t.z + m.r1.c3 * t.w,
   m.r2.c0 * t.x + m.r2.c1 * t.y + m.r2.c2 * t.z + m.r2.c3 * t.w,
   m.r3.c0 * t.x + m.r3.c1 * t.y + m.r3.c2 * t.z + m.r3.c3 * t.w⟩

/-- Translation of the `PartialEq` impl for `Matrix` at the fixed 4x4 size:
near equality of every entry (the row/column loops unrolled). -/
def M4.beq (a b : M4) : Bool :=
  near_eq a.r0.c0 b.r0.c0 && near_eq a.r0.c1 b.r0.c1 &&
  near_eq a.r0.c2 b.r0.c2 && near_eq a.r0.c3 b.r0.c3 &&
  near_eq a.r1.c0 b.r1.c0 && near_eq a.r1.c1 b.r1.c1 &&
  near_eq a.r1.c2 b.r1.c2 && near_eq a.r1.c3 b.r1.c3 &&
  near_eq a.r2.c0 b.r2.c0 && near_eq a.r2.c1 b.r2.c1 &&
  near_eq a.r2.c2 b.r2.c2 && near_eq a.r2.c3 b.r2.c3 &&
  near_eq a.r3.c0 b.r3.c0 && near_eq a.r3.c1 b.r3.c1 &&
  near_eq a.r3.c2 b.r3.c2 && near_eq a.r3.c3 b.r3.c3

/-- The singularity test of `Matrix::inverse`: the inverse of `m` exists when
`near_eq(determinant, 0)` fails; this cache-free form backs the rendering
pipeline, which per the spec only ever inverts matrices whose inverses were
computed successfully at scene-build time. -/
def M4.inverseOpt (m : M4) : Option M4 :=
  if near_eq m.determinant 0 then none else some m.inverseCore

/-- The `unwrap()` applied to `inverse()` throughout the pipeline; the panic
on a singular matrix is modelled as the identity and is unreachable in every
theorem below. -/
def M4.inverseD (m : M4) : M4 := m.inverseOpt.getD identity4

/-- Translation of the `Matrix` struct proper: the scalar payload together
with the stable identity that keys the process-wide inverse cache
(`CACHED_INVERSES` in src/lib.rs). -/
structure MatrixE where
  id : Int
  m : M4

/-- Translation of `Matrix::inverse` including the cache: look the identity
up in `CACHED_INVERSES`; on a miss, test the determinant, build the inverse
via `Matrix::new_inverse` (which reuses the *source matrix's* id), and push
it at the end of the cache.  The cache is passed and returned explicitly. -/
def MatrixE.inverse (a : MatrixE) (cache : List MatrixE) :
    Option MatrixE × List MatrixE :=
  match cache.find? (fun ci => ci.id == a.id) with
  | some ci => (some ci, cache)
  | none =>
      if near_eq a.m.determinant 0 then (none, cache)
      else
        let inv : MatrixE := ⟨a.id, a.m.inverseCore⟩
        (some inv, cache ++ [inv])

/-! ## Concrete invertible matrices -/

/-- The scaling matrix `scale(2, 2, 2)`, an invertible matrix used as a
concrete exhibit. -/
def diagM : M4 :=
  ⟨⟨2, 0, 0, 0⟩, ⟨0, 2, 0, 0⟩, ⟨0, 0, 2, 0⟩, ⟨0, 0, 0, 1⟩⟩

/-- A dense invertible matrix used to instantiate hypotheses. -/
def testM : M4 :=
  ⟨⟨1, 2, 0, 0⟩, ⟨3, 1, 1, 0⟩, ⟨0, 1, 1, 4⟩, ⟨2, 0, 0, 1⟩⟩

/-! ## Rays (src/ray.rs) -/

/-- Translation of `Ray`. -/
structure Ray where
  origin : Tuple
  direction : Tuple

/-- Translation of `Ray::position`. -/
def Ray.position (r : Ray) (t : F) : Tuple := r.origin.add (r.direction.mulS t)

/-- Translation of `Ray::transform`: the matrix applies to both origin and
direction. -/
def Ray.transform (r : Ray) (m : M4) : Ray := ⟨m.mulT r.origin, m.mulT r.direction⟩

/-! ## Extended scalars for infinite extents

Cylinder and cone truncation planes default to plus/minus infinity, and
bounding boxes use infinite sentinels, so their scalars are `f64` values that
can genuinely be infinite.  `XF` adjoins the two infinities to `F`.  NaN
arithmetic is modelled only as far as the translated comparisons require:
`near_eq` on any infinite operand is false (as in IEEE, where the
subtraction yields NaN or an infinity), and comparisons against an infinite
bound follow the IEEE total order on non-NaN floats.  Products and sums that
would produce NaN (zero times infinity, infinity minus infinity) are mapped
to the junk value `fin 0`; no verified claim depends on those corners. -/
inductive XF where
  | ninf : XF
  | fin : F → XF
  | pinf : XF

/-- Strict order on extended scalars (IEEE `<` on non-NaN values). -/
def XF.blt : XF → XF → Bool
  | .ninf, .ninf => false
  | .ninf, _ => true
  | .fin _, .ninf => false
  | .fin a, .fin b => F.blt a b
  | .fin _, .pinf => true
  | .pinf, _ => false

/-- Near equality on extended scalars; false when either side is infinite,
because the source subtracts the operands first. -/
def XF.near_eq : XF → XF → Bool
  | .fin a, .fin b => RT.near_eq a b
  | _, _ => false

/-- Negation on extended scalars. -/
def XF.neg : XF → XF
  | .ninf => .pinf
  | .fin a => .fin (-a)
  | .pinf => .ninf

/-- Absolute value on extended scalars. -/
def XF.abs : XF → XF
  | .ninf => .pinf
  | .fin a => .fin a.abs
  | .pinf => .pinf

/-- Addition on extended scalars; the NaN case (opposite infinities) maps to
the junk value. -/
def XF.add : XF → XF → XF
  | .fin a, .fin b => .fin (a + b)
  | .ninf, .pinf => .fin 0
  | .pinf, .ninf => .fin 0
  | .ninf, _ => .ninf
  | .pinf, _ => .pinf
  | .fin _, .ninf => .ninf
  | .fin _, .pinf => .pinf

/-- Subtraction on extended scalars. -/
def XF.sub (a b : XF) : XF := a.add b.neg

/-- Multiplication on extended scalars; zero times infinity (IEEE NaN) maps
to the junk value. -/
def XF.mul : XF → XF → XF
  | .fin a, .fin b => .fin (a * b)
  | .ninf, .ninf => .pinf
  | .ninf, .pinf => .ninf
  | .pinf, .ninf => .ninf
  | .pinf, .pinf => .pinf
  | .ninf, .fin b => if F.blt 0 b then .ninf else if F.blt b 0 then .pinf else .fin 0
  | .pinf, .fin b => if F.blt 0 b then .pinf else if F.blt b 0 then .ninf else .fin 0
  | .fin a, .ninf => if F.blt 0 a then .ninf else if F.blt a 0 then .pinf else .fin 0
  | .fin a, .pinf => if F.blt 0 a then .pinf else if F.blt a 0 then .ninf else .fin 0

/-- Division of an extended scalar by a finite one. -/
def XF.divF : XF → F → XF
  | .fin a, b => .fin (a / b)
  | .ninf, b => if F.blt b 0 then .pinf else .ninf
  | .pinf, b => if F.blt b 0 then .ninf else .pinf

/-- Halving (used by `split_bounds`). -/
def XF.half : XF → XF
  | .ninf => .ninf
  | .pinf => .pinf
  | .fin a => .fin (a / 2)

/-- The larger of two extended scalars (IEEE `f64::max` away from NaN). -/
def XF.max (a b : XF) : XF := if XF.blt a b then b else a

/-- The smaller of two extended scalars. -/
def XF.min (a b : XF) : XF := if XF.blt b a then b else a

/-- A tuple of extended scalars: the corner points of bounding boxes live on
the extended line. -/
structure XTup where
  x : XF
  y : XF
  z : XF
  w : XF

/-- Corner point constructor (`Tuple::point` as used by src/bound.rs). -/
def XTup.point (x y z : XF) : XTup := ⟨x, y, z, .fin 1⟩

/-- Embed an ordinary tuple on the extended line. -/
def Tuple.toX (t : Tuple) : XTup := ⟨.fin t.x, .fin t.y, .fin t.z, .fin t.w⟩

/-- Apply a 4x4 matrix to an extended tuple (the `Mul<Tuple>` impl lifted to
the extended line, used when `Bound::transform` maps infinite corners). -/
def M4.mulXT (m : M4) (t : XTup) : XTup :=
  ⟨((XF.fin m.r0.c0).mul t.x).add (((XF.fin m.r0.c1).mul t.y).add
      (((XF.fin m.r0.c2).mul t.z).add ((XF.fin m.r0.c3).mul t.w))),
   ((XF.fin m.r1.c0).mul t.x).add (((XF.fin m.r1.c1).mul t.y).add
      (((XF.fin m.r1.c2).mul t.z).add ((XF.fin m.r1.c3).mul t.w))),
   ((XF.fin m.r2.c0).mul t.x).add (((XF.fin m.r2.c1).mul t.y).add
      (((XF.fin m.r2.c2).mul t.z).add ((XF.fin m.r2.c3).mul t.w))),
   ((XF.fin m.r3.c0).mul t.x).add (((XF.fin m.r3.c1).mul t.y).add
      (((XF.fin m.r3.c2).mul t.z).add ((XF.fin m.r3.c3).mul t.w)))⟩

/-! ## Bounding boxes (src/bound.rs) -/

/-- Translation of `Bound`. -/
structure Bound where
  minimum : XTup
  maximum : XTup

/-- Translation of `Bound::bounding_box_empty`. -/
def Bound.bounding_box_empty : Bound :=
  ⟨XTup.point .pinf .pinf .pinf, XTup.point .ninf .ninf .ninf⟩

/-- Translation of `Bound::bounding_box_init`. -/
def Bound.bounding_box_init (minimum maximum : XTup) : Bound := ⟨minimum, maximum⟩

/-- Translation of `Bound::add_point` (the six conditional updates). -/
def Bound.add_point (b : Bound) (p : XTup) : Bound :=
  ⟨⟨if XF.blt p.x b.minimum.x then p.x else b.minimum.x,
    if XF.blt p.y b.minimum.y then p.y else b.minimum.y,
    if XF.blt p.z b.minimum.z then p.z else b.minimum.z,
    b.minimum.w⟩,
   ⟨if XF.blt b.maximum.x p.x then p.x else b.maximum.x,
    if XF.blt b.maximum.y p.y then p.y else b.maximum.y,
    if XF.blt b.maximum.z p.z then p.z else b.maximum.z,
    b.maximum.w⟩⟩

/-- Translation of `Bound::add_box`. -/
def Bound.add_box (b other : Bound) : Bound :=
  (b.add_point other.minimum).add_point other.maximum

/-- Translation of `Bound::box_contains_point`. -/
def Bound.box_contains_point (b : Bound) (p : XTup) : Bool :=
  (XF.near_eq b.minimum.x p.x || XF.near_eq b.maximum.x p.x ||
    (XF.blt b.minimum.x p.x && XF.blt p.x b.maximum.x)) &&
  (XF.near_eq b.minimum.y p.y || XF.near_eq b.maximum.y p.y ||
    (XF.blt b.minimum.y p.y && XF.blt p.y b.maximum.y)) &&
  (XF.near_eq b.minimum.z p.z || XF.near_eq b.maximum.z p.z ||
    (XF.blt b.minimum.z p.z && XF.blt p.z b.maximum.z))

/-- Translation of `Bound::box_contains_box`. -/
def Bound.box_contains_box (b other : Bound) : Bool :=
  b.box_contains_point other.minimum && b.box_contains_point other.maximum

/-- Translation of `Bound::transform`: map the eight corners and take their
axis-aligned hull. -/
def Bound.transform (b : Bound) (m : M4) : Bound :=
  let points := [
    b.minimum,
    XTup.point b.minimum.x b.minimum.y b.maximum.z,
    XTup.point b.minimum.x b.maximum.y b.minimum.z,
    XTup.point b.minimum.x b.maximum.y b.maximum.z,
    XTup.point b.maximum.x b.minimum.y b.minimum.z,
    XTup.point b.maximum.x b.minimum.y b.maximum.z,
    XTup.point b.maximum.x b.maximum.y b.minimum.z,
    b.maximum]
  points.foldl (fun nb p => nb.add_point (m.mulXT p)) Bound.bounding_box_empty

/-- Translation of the private `Bound::check_axis`: slab interval on one
axis, with the infinite-multiplication fallback for near-parallel rays. -/
def Bound.check_axis (origin direction : F) (minimum maximum : XF) : XF × XF :=
  let tmin_numerator := minimum.sub (.fin origin)
  let tmax_numerator := maximum.sub (.fin origin)
  let p :=
    if F.ble EPSILON direction.abs then
      (tmin_numerator.divF direction, tmax_numerator.divF direction)
    else
      (tmin_numerator.mul .pinf, tmax_numerator.mul .pinf)
  if XF.blt p.2 p.1 then (p.2, p.1) else p

/-- Translation of `Bound::intersects`: the greatest near-t must not exceed
the least far-t.  The source folds `f64::max` starting from NaN, which
yields the plain maximum of the three values. -/
def Bound.intersects (b : Bound) (ray : Ray) : Bool :=
  let xt := Bound.check_axis ray.origin.x ray.direction.x b.minimum.x b.maximum.x
  let yt := Bound.check_axis ray.origin.y ray.direction.y b.minimum.y b.maximum.y
  let zt := Bound.check_axis ray.origin.z ray.direction.z b.minimum.z b.maximum.z
  let tmin := (xt.1.max yt.1).max zt.1
  let tmax := (xt.2.min yt.2).min zt.2
  !(XF.blt tmax tmin)

/-- Translation of `Bound::split_bounds`: cut the box at the midpoint of its
largest extent; ties favor x, then y. -/
def Bound.split_bounds (b : Bound) : Bound × Bound :=
  let dx := (b.maximum.x.sub b.minimum.x).abs
  let dy := (b.maximum.y.sub b.minimum.y).abs
  let dz := (b.maximum.z.sub b.minimum.z).abs
  let greatest := (dx.max dy).max dz
  let p :=
    if XF.near_eq greatest dx then
      ((b.minimum.x.add dx.half, b.minimum.y, b.minimum.z),
       (b.minimum.x.add dx.half, b.maximum.y, b.maximum.z))
    else if XF.near_eq greatest dy then
      ((b.minimum.x, b.minimum.y.add dy.half, b.minimum.z),
       (b.maximum.x, b.minimum.y.add dy.half, b.maximum.z))
    else
      ((b.minimum.x, b.minimum.y, b.minimum.z.add dz.half),
       (b.maximum.x, b.maximum.y, b.minimum.z.add dz.half))
  let mid_min := XTup.point p.1.1 p.1.2.1 p.1.2.2
  let mid_max := XTup.point p.2.1 p.2.2.1 p.2.2.2
  (Bound.bounding_box_init b.minimum mid_max,
   Bound.bounding_box_init mid_min b.maximum)

/-! ## Patterns (src/pattern.rs), materials (src/material.rs), lights
(src/light.rs) -/

/-- Translation of the `Pattern` enum: each variant holds its two colors
(none for the test pattern) and its own transform. -/
inductive Pattern where
  | striped : Color → Color → M4 → Pattern
  | gradient : Color → Color → M4 → Pattern
  | ring : Color → Color → M4 → Pattern
  | checkered : Color → Color → M4 → Pattern
  | ringGradient : Color → Color → M4 → Pattern
  | test : M4 → Pattern

/-- Translation of `PatternTrait::get_transform`. -/
def Pattern.get_transform : Pattern → M4
  | .striped _ _ t => t
  | .gradient _ _ t => t
  | .ring _ _ t => t
  | .checkered _ _ t => t
  | .ringGradient _ _ t => t
  | .test t => t

/-- Translation of `StripedPattern::pattern_at`: `x` floor parity, with the
truncated remainder of Rust `%` on `i32`. -/
def stripedAt (a b : Color) (p : Tuple) : Color :=
  if (F.floor p.x).tmod 2 == 0 then a else b

/-- Translation of `GradientPattern::pattern_at`. -/
def gradientAt (a b : Color) (p : Tuple) : Color :=
  let distance := b.sub a
  let fraction := p.x - F.ofInt (F.floor p.x)
  a.add (distance.mulS fraction)

/-- Translation of `RingPattern::pattern_at`. -/
def ringAt (a b : Color) (p : Tuple) : Color :=
  if (F.floor (F.sqrt (p.x.powi 2 + p.z.powi 2))).tmod 2 == 0 then a else b

/-- Translation of `CheckeredPattern::pattern_at`; the three floors are
added exactly, as the `f64` sum of integral floors is exact. -/
def checkeredAt (a b : Color) (p : Tuple) : Color :=
  if (F.floor p.x + F.floor p.y + F.floor p.z).tmod 2 == 0 then a else b

/-- Translation of `RingGradientPattern::pattern_at`. -/
def ringGradientAt (a b : Color) (p : Tuple) : Color :=
  let distance := b.sub a
  let c := F.sqrt (p.x.powi 2 + p.z.powi 2)
  let fraction := c - F.ofInt (F.floor c)
  a.add (distance.mulS fraction)

/-- Translation of the variant dispatch inside `pattern_at_shape` (the
pattern evaluated at a pattern-space point). -/
def Pattern.pattern_at : Pattern → Tuple → Color
  | .striped a b _, p => stripedAt a b p
  | .gradient a b _, p => gradientAt a b p
  | .ring a b _, p => ringAt a b p
  | .checkered a b _, p => checkeredAt a b p
  | .ringGradient a b _, p => ringGradientAt a b p
  | .test _, p => Color.mk p.x p.y p.z

/-- Translation of the derived `PartialEq` for `Pattern` (componentwise,
with near equality on colors and matrices). -/
def Pattern.beq : Pattern → Pattern → Bool
  | .striped a b t, .striped a2 b2 t2 => a.beq a2 && b.beq b2 && t.beq t2
  | .gradient a b t, .gradient a2 b2 t2 => a.beq a2 && b.beq b2 && t.beq t2
  | .ring a b t, .ring a2 b2 t2 => a.beq a2 && b.beq b2 && t.beq t2
  | .checkered a b t, .checkered a2 b2 t2 => a.beq a2 && b.beq b2 && t.beq t2
  | .ringGradient a b t, .ringGradient a2 b2 t2 => a.beq a2 && b.beq b2 && t.beq t2
  | .test t, .test t2 => t.beq t2
  | _, _ => false

/-- Translation of `Material`. -/
structure Material where
  color : Color
  ambient : F
  diffuse : F
  specular : F
  shininess : F
  pattern : Option Pattern
  reflective : F
  transparency : F
  refractive_index : F

/-- Translation of the `Default` impl for `Material`. -/
def Material.default : Material :=
  ⟨WHITE, ⟨1, 10, by norm_num⟩, ⟨9, 10, by norm_num⟩, ⟨9, 10, by norm_num⟩,
    200, none, 0, 0, 1⟩

/-- Translation of the `PartialEq` impl for `Material` (which compares the
Phong parameters and the pattern, but not reflectivity or transparency). -/
def Material.beq (a b : Material) : Bool :=
  a.color.beq b.color && near_eq a.ambient b.ambient &&
    near_eq a.diffuse b.diffuse && near_eq a.specular b.specular &&
    near_eq a.shininess b.shininess &&
    (match a.pattern, b.pattern with
     | none, none => true
     | some p, some q => p.beq q
     | _, _ => false)

/-- Modelled from the spec: `f64::powf` as used for the specular exponent
`(R.E)^shininess`; exact for the natural-number shininess values the scenes
use (the default is 200). -/
def F.powf (a e : F) : F := a.powi e.floor.toNat

/-- Translation of `Light` (a point light). -/
structure Light where
  position : Tuple
  intensity : Color

/-- Translation of `Light::point_light`. -/
def Light.point_light (position : Tuple) (intensity : Color) : Light :=
  ⟨position, intensity⟩

/-! ## Shapes (src/shape.rs and the primitive modules)

The `Shape` enum of src/shape.rs tags every primitive together with groups;
src/csg.rs additionally wraps two shapes under a boolean operation and
constructs `Shape::CSG` values, a variant that the snapshot of src/shape.rs
predates, so the CSG variant and the `includes` membership test follow the
spec (sections 3 and 4.K).  Every variant carries the common payload that
the `CommonShape` accessors read: id, transform, material, shadow flag and
optional parent id (the snapshots of src/sphere.rs and src/cube.rs predate
some of these fields; the spec data model lists all of them for every
variant). -/
structure ShapeBase where
  id : Int
  transform : M4
  material : Material
  casts_shadow : Bool
  parent : Option Int

/-- The shape tree. -/
inductive Shape where
  | sphere : ShapeBase → Shape
  | plane : ShapeBase → Shape
  | cube : ShapeBase → Shape
  | cylinder : ShapeBase → XF → XF → Bool → Shape
  | cone : ShapeBase → XF → XF → Bool → Shape
  | triangle : ShapeBase → Tuple → Tuple → Tuple → Tuple → Tuple → Tuple → Shape
  | smoothTriangle : ShapeBase → Tuple → Tuple → Tuple → Tuple → Tuple → Tuple →
      Tuple → Tuple → Tuple → Shape
  | group : ShapeBase → List Shape → Shape
  | csg : ShapeBase → String → Shape → Shape → Shape
  | testShape : ShapeBase → Shape

/-- The common payload of a shape. -/
def Shape.base : Shape → ShapeBase
  | .sphere b => b
  | .plane b => b
  | .cube b => b
  | .cylinder b _ _ _ => b
  | .cone b _ _ _ => b
  | .triangle b _ _ _ _ _ _ => b
  | .smoothTriangle b _ _ _ _ _ _ _ _ _ => b
  | .group b _ => b
  | .csg b _ _ _ => b
  | .testShape b => b

/-- Translation of `CommonShape::get_id`. -/
def Shape.get_id (s : Shape) : Int := s.base.id

/-- Translation of `CommonShape::get_transform`. -/
def Shape.get_transform (s : Shape) : M4 := s.base.transform

/-- Translation of `CommonShape::get_casts_shadow`. -/
def Shape.get_casts_shadow (s : Shape) : Bool := s.base.casts_shadow

/-- Translation of `CommonShape::get_parent`. -/
def Shape.get_parent (s : Shape) : Option Int := s.base.parent

/-- The material stored on the shape itself (the `None`-parent arm of
`CommonShape::get_material`). -/
def Shape.own_material (s : Shape) : Material := s.base.material

/-- Translation of `CommonShape::get_material`: a parented shape resolves
its material from the canonical parent copy in the `PARENT_REFERENCES`
registry, recursively.  The registry is passed explicitly; the fuel bounds
the parent-chain walk, which the source performs by unguarded recursion (a
cyclic registry would hang it); a missing registry entry, which panics in
the source, falls back to the shape's own material. -/
def Shape.get_material : Nat → List Shape → Shape → Material
  | 0, _, s => s.own_material
  | fuel + 1, reg, s =>
      match s.get_parent with
      | some p =>
          match reg.find? (fun pr => pr.get_id == p) with
          | some ps => Shape.get_material fuel reg ps
          | none => s.own_material
      | none => s.own_material

/-- Translation of the derived and hand-written `PartialEq` impls across the
shape modules: same variant, equal ids, near-equal transforms and Phong
materials, equal flags and parents, and near-equal variant payloads. -/
def Shape.beq (a b : Shape) : Bool :=
  (a.get_id == b.get_id && a.get_transform.beq b.get_transform &&
    a.own_material.beq b.own_material &&
    a.get_casts_shadow == b.get_casts_shadow && a.get_parent == b.get_parent) &&
  match a, b with
  | .sphere _, .sphere _ => true
  | .plane _, .plane _ => true
  | .cube _, .cube _ => true
  | .cylinder _ mn mx c, .cylinder _ mn2 mx2 c2 =>
      XF.near_eq mn mn2 && XF.near_eq mx mx2 && c == c2
  | .cone _ mn mx c, .cone _ mn2 mx2 c2 =>
      XF.near_eq mn mn2 && XF.near_eq mx mx2 && c == c2
  | .triangle _ p1 p2 p3 e1 e2 nv, .triangle _ q1 q2 q3 f1 f2 mv =>
      p1.beq q1 && p2.beq q2 && p3.beq q3 && e1.beq f1 && e2.beq f2 && nv.beq mv
  | .smoothTriangle _ p1 p2 p3 n1 n2 n3 e1 e2 nv,
    .smoothTriangle _ q1 q2 q3 m1 m2 m3 f1 f2 mv =>
      p1.beq q1 && p2.beq q2 && p3.beq q3 && n1.beq m1 && n2.beq m2 &&
        n3.beq m3 && e1.beq f1 && e2.beq f2 && nv.beq mv
  | .group _ _, .group _ _ => true
  | .csg _ op _ _, .csg _ op2 _ _ => op == op2
  | .testShape _, .testShape _ => true
  | _, _ => false

/-- Translation of `Intersection` (src/intersection.rs), with the optional
barycentric coordinates that smooth-triangle hits carry per the spec data
model (the snapshot of src/intersection.rs predates the u,v fields that
src/smooth_triangle.rs populates). -/
structure Intersection where
  t : F
  object : Shape
  u : Option F
  v : Option F

/-- Translation of `Intersection::new`. -/
def Intersection.mkTI (t : F) (object : Shape) : Intersection := ⟨t, object, none, none⟩

/-- Translation of `Intersection::intersection_with_uv`. -/
def Intersection.intersection_with_uv (t : F) (object : Shape) (u v : F) :
    Intersection := ⟨t, object, some u, some v⟩

/-- Translation of the `PartialEq` impl for `Intersection` (near-equal t and
equal objects; u and v are not compared). -/
def Intersection.beq (a b : Intersection) : Bool :=
  near_eq a.t b.t && a.object.beq b.object

/-- Translation of `Intersection::hit`: the first strictly positive `t` of a
list assumed sorted ascending (`filter(t > 0).next()`). -/
def Intersection.hit (intersections : List Intersection) : Option Intersection :=
  intersections.find? (fun i => F.blt 0 i.t)

/-- Comparator used by every `sort_by(a.t.partial_cmp(b.t))` call. -/
def tleI (a b : Intersection) : Prop := F.ble a.t b.t = true

instance : DecidableRel tleI := fun a b => instDecidableEqBool _ _

/-- The stable ascending sort by `t`.  Rust's `sort_by` is a stable sort;
for a total comparator a stable sort's output is unique, so insertion sort
denotes it exactly. -/
def sortByT (l : List Intersection) : List Intersection := l.insertionSort tleI

/-- Conversion of an extended t-value back to a plain scalar for storage in
an `Intersection`; an infinite t (which only a degenerate zero-direction ray
can produce) maps to the junk value 0. -/
def XF.toF : XF → F
  | .fin a => a
  | _ => 0

/-- Translation of `Sphere::intersect` on the already-transformed local ray
(the snapshot of src/sphere.rs still inverts the transform itself, which the
`Shape::intersect` dispatcher has since taken over; the quadratic is
unchanged). -/
def sphereIntersect (self : Shape) (ray : Ray) : List Intersection :=
  let sphere_to_ray := ray.origin.sub ORIGIN
  let a := ray.direction.dot ray.direction
  let b := 2 * ray.direction.dot sphere_to_ray
  let c := sphere_to_ray.dot sphere_to_ray - 1
  let discriminant := b.powi 2 - 4 * a * c
  if F.blt discriminant 0 then []
  else
    [Intersection.mkTI ((-b - discriminant.sqrt) / (2 * a)) self,
     Intersection.mkTI ((-b + discriminant.sqrt) / (2 * a)) self]

/-- Translation of `Plane::intersect`. -/
def planeIntersect (self : Shape) (ray : Ray) : List Intersection :=
  if F.blt ray.direction.y.abs EPSILON then []
  else [Intersection.mkTI (-ray.origin.y / ray.direction.y) self]

/-- Translation of the private `Cube::check_axis` (unit slab at the origin),
with the infinite-multiplication fallback for near-parallel directions. -/
def cubeCheckAxis (origin direction : F) : XF × XF :=
  let tmin_numerator := -(1 : F) - origin
  let tmax_numerator := (1 : F) - origin
  let p :=
    if F.ble EPSILON direction.abs then
      (XF.fin (tmin_numerator / direction), XF.fin (tmax_numerator / direction))
    else
      ((XF.fin tmin_numerator).mul .pinf, (XF.fin tmax_numerator).mul .pinf)
  if XF.blt p.2 p.1 then (p.2, p.1) else p

/-- Translation of `Cube::intersect`. -/
def cubeIntersect (self : Shape) (ray : Ray) : List Intersection :=
  let xt := cubeCheckAxis ray.origin.x ray.direction.x
  let yt := cubeCheckAxis ray.origin.y ray.direction.y
  let zt := cubeCheckAxis ray.origin.z ray.direction.z
  let tmin := (xt.1.max yt.1).max zt.1
  let tmax := (xt.2.min yt.2).min zt.2
  if XF.blt tmax tmin then []
  else [Intersection.mkTI tmin.toF self, Intersection.mkTI tmax.toF self]

/-- Translation of the private `Cylinder::check_cap` (unit end-cap disk),
lifted to extended t-values for possibly infinite truncation planes. -/
def cylinderCheckCap (ray : Ray) (t : XF) : Bool :=
  let x := (XF.fin ray.origin.x).add (t.mul (.fin ray.direction.x))
  let z := (XF.fin ray.origin.z).add (t.mul (.fin ray.direction.z))
  let result := (x.mul x).add (z.mul z)
  XF.blt result (.fin 1) || XF.near_eq result (.fin 1)

/-- Translation of `Cylinder::intersect_caps`, taking the intersections
accumulated so far like the `&mut Vec` of the source. -/
def cylinderIntersectCaps (self : Shape) (minimum maximum : XF) (closed : Bool)
    (ray : Ray) (acc : List Intersection) : List Intersection :=
  if !closed || near_eq ray.direction.y 0 then acc
  else
    let t_lower := (minimum.sub (.fin ray.origin.y)).divF ray.direction.y
    let acc1 :=
      if cylinderCheckCap ray t_lower then acc ++ [Intersection.mkTI t_lower.toF self]
      else acc
    let t_upper := (maximum.sub (.fin ray.origin.y)).divF ray.direction.y
    if cylinderCheckCap ray t_upper then acc1 ++ [Intersection.mkTI t_upper.toF self]
    else acc1

/-- Translation of `Cylinder::intersect`: the lateral quadratic (skipped
when the direction is near-parallel to the axis, and returning without the
cap test when the discriminant is negative), then the end caps. -/
def cylinderIntersect (self : Shape) (minimum maximum : XF) (closed : Bool)
    (ray : Ray) : List Intersection :=
  let a := ray.direction.x.powi 2 + ray.direction.z.powi 2
  if !near_eq a 0 then
    let b := 2 * ray.origin.x * ray.direction.x + 2 * ray.origin.z * ray.direction.z
    let c := ray.origin.x.powi 2 + ray.origin.z.powi 2 - 1
    let disc := b.powi 2 - 4 * a * c
    if F.blt disc 0 then []
    else
      let ta := (-b - disc.sqrt) / (2 * a)
      let tb := (-b + disc.sqrt) / (2 * a)
      let t0 := if F.blt tb ta then tb else ta
      let t1 := if F.blt tb ta then ta else tb
      let y0 := ray.origin.y + t0 * ray.direction.y
      let i0 :=
        if XF.blt minimum (.fin y0) && XF.blt (.fin y0) maximum then
          [Intersection.mkTI t0 self]
        else []
      let y1 := ray.origin.y + t1 * ray.direction.y
      let i1 :=
        if XF.blt minimum (.fin y1) && XF.blt (.fin y1) maximum then
          [Intersection.mkTI t1 self]
        else []
      cylinderIntersectCaps self minimum maximum closed ray (i0 ++ i1)
  else
    cylinderIntersectCaps self minimum maximum closed ray []

/-- Translation of the private `Cone::check_cap` (cap radius `|y|`). -/
def coneCheckCap (ray : Ray) (t : XF) (y : XF) : Bool :=
  let x := (XF.fin ray.origin.x).add (t.mul (.fin ray.direction.x))
  let z := (XF.fin ray.origin.z).add (t.mul (.fin ray.direction.z))
  let result := (x.mul x).add (z.mul z)
  XF.blt result (y.mul y) || XF.near_eq result (y.mul y)

/-- Translation of `Cone::intersect_caps`. -/
def coneIntersectCaps (self : Shape) (minimum maximum : XF) (closed : Bool)
    (ray : Ray) (acc : List Intersection) : List Intersection :=
  if !closed || near_eq ray.direction.y 0 then acc
  else
    let t_lower := (minimum.sub (.fin ray.origin.y)).divF ray.direction.y
    let acc1 :=
      if coneCheckCap ray t_lower minimum then acc ++ [Intersection.mkTI t_lower.toF self]
      else acc
    let t_upper := (maximum.sub (.fin ray.origin.y)).divF ray.direction.y
    if coneCheckCap ray t_upper maximum then acc1 ++ [Intersection.mkTI t_upper.toF self]
    else acc1

/-- Translation of `Cone::intersect`: the single-root branch when the
quadratic degenerates, the quadratic branch otherwise, then the caps. -/
def coneIntersect (self : Shape) (minimum maximum : XF) (closed : Bool)
    (ray : Ray) : List Intersection :=
  let a := ray.direction.x.powi 2 - ray.direction.y.powi 2 + ray.direction.z.powi 2
  let b := 2 * ray.origin.x * ray.direction.x - 2 * ray.origin.y * ray.direction.y +
    2 * ray.origin.z * ray.direction.z
  let c := ray.origin.x.powi 2 - ray.origin.y.powi 2 + ray.origin.z.powi 2
  let single :=
    if near_eq a 0 && !near_eq b 0 then [Intersection.mkTI (-c / (2 * b)) self]
    else []
  let quad :=
    if !near_eq a 0 then
      let disc := b.powi 2 - 4 * a * c
      if F.blt 0 disc || near_eq disc 0 then
        let ta := (-b - disc.sqrt) / (2 * a)
        let tb := (-b + disc.sqrt) / (2 * a)
        let t0 := if F.blt tb ta then tb else ta
        let t1 := if F.blt tb ta then ta else tb
        let y0 := ray.origin.y + t0 * ray.direction.y
        let i0 :=
          if XF.blt minimum (.fin y0) && XF.blt (.fin y0) maximum then
            [Intersection.mkTI t0 self]
          else []
        let y1 := ray.origin.y + t1 * ray.direction.y
        let i1 :=
          if XF.blt minimum (.fin y1) && XF.blt (.fin y1) maximum then
            [Intersection.mkTI t1 self]
          else []
        i0 ++ i1
      else []
    else []
  coneIntersectCaps self minimum maximum closed ray (single ++ quad)

/-- Translation of `Triangle::intersect` (the Möller-Trumbore kernel), which
reads the precomputed edge vectors. -/
def triangleIntersect (self : Shape) (point1 edge_vector1 edge_vector2 : Tuple)
    (ray : Ray) : List Intersection :=
  let dir_cross_e2 := ray.direction.cross edge_vector2
  let determinant := edge_vector1.dot dir_cross_e2
  if F.blt determinant.abs EPSILON then []
  else
    let f := (1 : F) / determinant
    let p1_to_origin := ray.origin.sub point1
    let u := f * p1_to_origin.dot dir_cross_e2
    if F.blt u 0 || F.blt 1 u then []
    else
      let origin_cross_e1 := p1_to_origin.cross edge_vector1
      let v := f * ray.direction.dot origin_cross_e1
      if F.blt v 0 || F.blt 1 (u + v) then []
      else [Intersection.mkTI (f * edge_vector2.dot origin_cross_e1) self]

/-- Translation of `SmoothTriangle::intersect`: the same kernel, emitting
the barycentric coordinates. -/
def smoothTriangleIntersect (self : Shape)
    (point1 edge_vector1 edge_vector2 : Tuple) (ray : Ray) : List Intersection :=
  let dir_cross_e2 := ray.direction.cross edge_vector2
  let determinant := edge_vector1.dot dir_cross_e2
  if F.blt determinant.abs EPSILON then []
  else
    let f := (1 : F) / determinant
    let p1_to_origin := ray.origin.sub point1
    let u := f * p1_to_origin.dot dir_cross_e2
    if F.blt u 0 || F.blt 1 u then []
    else
      let origin_cross_e1 := p1_to_origin.cross edge_vector1
      let v := f * ray.direction.dot origin_cross_e1
      if F.blt v 0 || F.blt 1 (u + v) then []
      else
        [Intersection.intersection_with_uv
          (f * edge_vector2.dot origin_cross_e1) self u v]

/-- The local bounding box of each primitive.  Cylinder, cone, plane and the
triangles are translated from their modules (the source returns the empty
box for both triangle kinds); sphere, cube and the test shape predate
`bounds_of` in the snapshot and follow the spec table in section 4.G. -/
def Shape.local_bounds : Shape → Bound
  | .sphere _ => Bound.bounding_box_init
      (XTup.point (.fin (-1)) (.fin (-1)) (.fin (-1)))
      (XTup.point (.fin 1) (.fin 1) (.fin 1))
  | .cube _ => Bound.bounding_box_init
      (XTup.point (.fin (-1)) (.fin (-1)) (.fin (-1)))
      (XTup.point (.fin 1) (.fin 1) (.fin 1))
  | .testShape _ => Bound.bounding_box_init
      (XTup.point (.fin (-1)) (.fin (-1)) (.fin (-1)))
      (XTup.point (.fin 1) (.fin 1) (.fin 1))
  | .plane _ => Bound.bounding_box_init
      (XTup.point .ninf (.fin 0) .ninf) (XTup.point .pinf (.fin 0) .pinf)
  | .cylinder _ mn mx _ => Bound.bounding_box_init
      (XTup.point (.fin (-1)) mn (.fin (-1))) (XTup.point (.fin 1) mx (.fin 1))
  | .cone _ mn mx _ =>
      let limit := mn.abs.max mx.abs
      Bound.bounding_box_init
        (XTup.point limit.neg mn limit.neg) (XTup.point limit mx limit)
  | .triangle _ _ _ _ _ _ _ => Bound.bounding_box_empty
  | .smoothTriangle _ _ _ _ _ _ _ _ _ _ => Bound.bounding_box_empty
  | .group _ _ => Bound.bounding_box_empty
  | .csg _ _ _ _ => Bound.bounding_box_empty

/- Translation of `CommonShape::bounds_of`: primitives report their local
box, a group takes the hull of its children's parent-space boxes
(`parent_space_bounds_of` inlined as `bounds_of` transformed by the child's
transform), and a CSG reports the empty box as src/csg.rs does.  The group
fold is a helper of the block so the recursion is structural. -/

mutual

/-- See the comment above the mutual block. -/
def Shape.bounds_of : Shape → Bound
  | .group _ children => boundsOfChildren children Bound.bounding_box_empty
  | s => s.local_bounds

def boundsOfChildren : List Shape → Bound → Bound
  | [], acc => acc
  | c :: cs, acc =>
      boundsOfChildren cs (acc.add_box ((Shape.bounds_of c).transform c.get_transform))

end

/-- Translation of `CommonShape::parent_space_bounds_of`. -/
def Shape.parent_space_bounds_of (s : Shape) : Bound :=
  (s.bounds_of).transform s.get_transform

/- Modelled from the spec: `Shape::includes`, the membership test that
`CSG::filter_intersections` uses to decide whether a hit belongs to the left
subtree; the snapshot of src/shape.rs predates it.  Spec section 4.K:
membership by id, recursing into groups and CSG subtrees. -/

mutual

/-- See the comment above the mutual block. -/
def Shape.includes : Shape → Shape → Bool
  | .group _ children, b => includesList children b
  | .csg _ _ l r, b => Shape.includes l b || Shape.includes r b
  | a, b => a.get_id == b.get_id

def includesList : List Shape → Shape → Bool
  | [], _ => false
  | c :: cs, b => Shape.includes c b || includesList cs b

end

/-- Translation of `CSG::intersection_allowed`: the boolean filter table of
the three operations; an unknown operation keeps nothing. -/
def intersection_allowed (operation : String) (left_hit inside_left_hit
    inside_right_hit : Bool) : Bool :=
  if operation == "union" then
    (left_hit && !inside_right_hit) || (!left_hit && !inside_left_hit)
  else if operation == "intersection" then
    (left_hit && inside_right_hit) || (!left_hit && inside_left_hit)
  else if operation == "difference" then
    (left_hit && !inside_right_hit) || (!left_hit && inside_left_hit)
  else false

/-- The loop body of `CSG::filter_intersections` as a fold step: keep the
hit when the operation allows it in the current state, then toggle the side
the hit belongs to. -/
def filterStep (left : Shape) (operation : String)
    (st : Bool × Bool × List Intersection) (i : Intersection) :
    Bool × Bool × List Intersection :=
  let left_hit := left.includes i.object
  let result :=
    if intersection_allowed operation left_hit st.1 st.2.1 then st.2.2 ++ [i]
    else st.2.2
  if left_hit then (!st.1, st.2.1, result) else (st.1, !st.2.1, result)

/-- Translation of `CSG::filter_intersections`: walk the sorted hits with
the two insideness flags initially false. -/
def filter_intersections (left : Shape) (operation : String)
    (intersections : List Intersection) : List Intersection :=
  (intersections.foldl (filterStep left operation) (false, false, [])).2.2

/- Translation of `CommonShape::intersect` together with the local
kernels: transform the ray by the inverse of the shape's transform, then
dispatch.  A group first tests its own bounds and then concatenates and
sorts its children's hits (src/group.rs); a CSG merges, sorts and filters
its two subtrees' hits (src/csg.rs).  The child concatenation is a helper
of the block so the recursion is structural. -/

mutual

/-- See the comment above the mutual block. -/
def Shape.intersect (s : Shape) (ray : Ray) : List Intersection :=
  let local_ray := ray.transform s.get_transform.inverseD
  match s with
  | .sphere _ => sphereIntersect s local_ray
  | .plane _ => planeIntersect s local_ray
  | .cube _ => cubeIntersect s local_ray
  | .cylinder _ mn mx cl => cylinderIntersect s mn mx cl local_ray
  | .cone _ mn mx cl => coneIntersect s mn mx cl local_ray
  | .triangle _ p1 _ _ e1 e2 _ => triangleIntersect s p1 e1 e2 local_ray
  | .smoothTriangle _ p1 _ _ _ _ _ e1 e2 _ =>
      smoothTriangleIntersect s p1 e1 e2 local_ray
  | .group _ children =>
      if (Shape.bounds_of s).intersects local_ray then
        sortByT (intersectChildren children local_ray)
      else []
  | .csg _ op l r =>
      filter_intersections l op
        (sortByT (Shape.intersect l local_ray ++ Shape.intersect r local_ray))
  | .testShape _ => []

def intersectChildren : List Shape → Ray → List Intersection
  | [], _ => []
  | c :: cs, ray => Shape.intersect c ray ++ intersectChildren cs ray

end

/-! ## Normals and the world-object transform chain (src/shape.rs) -/

/-- Translation of `CommonShape::world_to_object`: a parented shape first
asks the canonical parent copy in the registry, then applies its own inverse
transform.  Fuel bounds the parent walk as in `get_material`. -/
def Shape.world_to_object : Nat → List Shape → Shape → Tuple → Tuple
  | 0, _, s, point => s.get_transform.inverseD.mulT point
  | fuel + 1, reg, s, point =>
      s.get_transform.inverseD.mulT
        (match s.get_parent with
         | some p =>
             match reg.find? (fun pr => pr.get_id == p) with
             | some ps => Shape.world_to_object fuel reg ps point
             | none => point
         | none => point)

/-- Translation of `CommonShape::normal_to_world`: inverse-transpose, zero
the w component, renormalize, then delegate to the parent. -/
def Shape.normal_to_world : Nat → List Shape → Shape → Tuple → Tuple
  | 0, _, s, normal =>
      let nn := s.get_transform.inverseD.transpose.mulT normal
      (Tuple.mk nn.x nn.y nn.z 0).normalize
  | fuel + 1, reg, s, normal =>
      let nn := s.get_transform.inverseD.transpose.mulT normal
      let nn2 := (Tuple.mk nn.x nn.y nn.z 0).normalize
      match s.get_parent with
      | some p =>
          match reg.find? (fun pr => pr.get_id == p) with
          | some ps => Shape.normal_to_world fuel reg ps nn2
          | none => nn2
      | none => nn2

/-- Translation of `Cube::normal_at` (the axis of greatest magnitude). -/
def cubeNormal (p : Tuple) : Tuple :=
  let maxc := (if F.blt p.x.abs p.y.abs then p.y.abs else p.x.abs)
  let maxc := if F.blt maxc p.z.abs then p.z.abs else maxc
  if near_eq maxc p.x.abs then Tuple.vector p.x 0 0
  else if near_eq maxc p.y.abs then Tuple.vector 0 p.y 0
  else Tuple.vector 0 0 p.z

/-- Translation of `Cylinder::normal_at` (end caps within EPSILON of the
truncation planes, lateral surface otherwise). -/
def cylinderNormal (minimum maximum : XF) (p : Tuple) : Tuple :=
  let distance := p.x.powi 2 + p.z.powi 2
  let topEdge := maximum.sub (.fin EPSILON)
  let bottomEdge := minimum.add (.fin EPSILON)
  if F.blt distance 1 && (XF.blt topEdge (.fin p.y) || XF.near_eq (.fin p.y) topEdge) then
    Tuple.vector 0 1 0
  else if F.blt distance 1 &&
      (XF.blt (.fin p.y) bottomEdge || XF.near_eq (.fin p.y) bottomEdge) then
    Tuple.vector 0 (-1) 0
  else Tuple.vector p.x 0 p.z

/-- Translation of `Cone::normal_at`. -/
def coneNormal (minimum maximum : XF) (p : Tuple) : Tuple :=
  let distance := p.x.powi 2 + p.z.powi 2
  let topEdge := maximum.sub (.fin EPSILON)
  let bottomEdge := minimum.add (.fin EPSILON)
  if XF.blt (.fin distance) (maximum.mul maximum) &&
      (XF.blt topEdge (.fin p.y) || XF.near_eq (.fin p.y) topEdge) then
    Tuple.vector 0 1 0
  else if XF.blt (.fin distance) (minimum.mul minimum) &&
      (XF.blt (.fin p.y) bottomEdge || XF.near_eq (.fin p.y) bottomEdge) then
    Tuple.vector 0 (-1) 0
  else
    let y := distance.sqrt
    Tuple.vector p.x (if F.blt 0 p.y then -y else y) p.z

/-- The local normal of each variant: sphere per the spec table (the
snapshot of src/sphere.rs still composes the transforms itself), the rest
translated from their modules.  The group and CSG arms panic in the source
(`BadShapeOp`); the panic is modelled as the zero vector and is unreachable
from the verified claims. -/
def Shape.local_normal (s : Shape) (p : Tuple) (hit : Intersection) : Tuple :=
  match s with
  | .sphere _ => p.sub ORIGIN
  | .plane _ => Tuple.vector 0 1 0
  | .cube _ => cubeNormal p
  | .cylinder _ mn mx _ => cylinderNormal mn mx p
  | .cone _ mn mx _ => coneNormal mn mx p
  | .triangle _ _ _ _ _ _ nv => nv
  | .smoothTriangle _ _ _ _ n1 n2 n3 _ _ _ =>
      let hu := hit.u.getD 0
      let hv := hit.v.getD 0
      ((n2.mulS hu).add (n3.mulS hv)).add (n1.mulS (1 - hu - hv))
  | .group _ _ => Tuple.vector 0 0 0
  | .csg _ _ _ _ => Tuple.vector 0 0 0
  | .testShape _ => Tuple.vector p.x p.y p.z

/-- Translation of `CommonShape::normal_at`: world point to object space,
local normal, back to world space.  The fuel for the parent walks is one
more than the registry size, which bounds every acyclic chain. -/
def Shape.normal_at (reg : List Shape) (s : Shape) (world_point : Tuple)
    (hit : Intersection) : Tuple :=
  let fuel := reg.length + 1
  let local_point := Shape.world_to_object fuel reg s world_point
  Shape.normal_to_world fuel reg s (s.local_normal local_point hit)

/-- Translation of `PatternTrait::pattern_at_shape`: world point to object
space by the shape's inverse transform, then to pattern space by the
pattern's own inverse transform. -/
def Pattern.pattern_at_shape (p : Pattern) (object : Shape) (world_point : Tuple) :
    Color :=
  let object_point := object.get_transform.inverseD.mulT world_point
  let pattern_point := p.get_transform.inverseD.mulT object_point
  p.pattern_at pattern_point

/-- Translation of `Material::lighting` (the Phong kernel). -/
def Material.lighting (m : Material) (object : Shape) (light : Light)
    (point eye_vector normal_vector : Tuple) (in_shadow : Bool) : Color :=
  let real_color :=
    match m.pattern with
    | some p => p.pattern_at_shape object point
    | none => m.color
  let effective_color := real_color.mul light.intensity
  let light_vector := (light.position.sub point).normalize
  let ambient := effective_color.mulS m.ambient
  let light_dot_normal := light_vector.dot normal_vector
  let ds :=
    if F.blt light_dot_normal 0 then (BLACK, BLACK)
    else
      let diffuse := (effective_color.mulS m.diffuse).mulS light_dot_normal
      let reflect_vector := (light_vector.neg).reflect normal_vector
      let reflect_dot_eye := reflect_vector.dot eye_vector
      if near_eq 0 reflect_dot_eye || F.blt reflect_dot_eye 0 then (diffuse, BLACK)
      else
        let factor := F.powf reflect_dot_eye m.shininess
        (diffuse, (light.intensity.mulS m.specular).mulS factor)
  if in_shadow then ambient else (ambient.add ds.1).add ds.2

/-! ## Computations and the world (src/computations.rs, src/intersection.rs,
src/world.rs) -/

/-- Translation of `Computations`. -/
structure Computations where
  t : F
  object : Shape
  point : Tuple
  eye_vector : Tuple
  normal_vector : Tuple
  inside : Bool
  over_point : Tuple
  reflect_vector : Tuple
  n1 : F
  n2 : F
  under_point : Tuple

/-- The refractive index read off the last container, or 1 for vacuum (the
`containers.last()` branches of `prepare_computations`). -/
def lastIndex (reg : List Shape) (containers : List Shape) : F :=
  match containers.getLast? with
  | none => 1
  | some c => (Shape.get_material (reg.length + 1) reg c).refractive_index

/-- One step of the containers walk of `prepare_computations`: record n1 at
the current hit, enter or exit the container, record n2 at the current
hit. -/
def containersStep (reg : List Shape) (self : Intersection)
    (st : F × F × List Shape) (inter : Intersection) : F × F × List Shape :=
  let n1 := if inter.beq self then lastIndex reg st.2.2 else st.1
  let containers :=
    if st.2.2.any (fun con => con.beq inter.object) then
      st.2.2.eraseP (fun con => con.beq inter.object)
    else st.2.2 ++ [inter.object]
  let n2 := if inter.beq self then lastIndex reg containers else st.2.1
  (n1, n2, containers)

/-- Translation of `Intersection::prepare_computations`. -/
def Intersection.prepare_computations (reg : List Shape) (self : Intersection)
    (ray : Ray) (intersections : List Intersection) : Computations :=
  let point := ray.position self.t
  let normal0 := Shape.normal_at reg self.object point self
  let eye_vector := ray.direction.neg
  let inside := F.blt (normal0.dot eye_vector) 0
  let normal_vector := if inside then normal0.neg else normal0
  let over_point := point.add (normal_vector.mulS EPSILON)
  let under_point := point.sub (normal_vector.mulS EPSILON)
  let reflect_vector := ray.direction.reflect normal_vector
  let walk := intersections.foldl (containersStep reg self) (0, 0, [])
  ⟨self.t, self.object, point, eye_vector, normal_vector, inside, over_point,
    reflect_vector, walk.1, walk.2.1, under_point⟩

/-- Translation of `Intersection::schlick` (the Fresnel approximation). -/
def Intersection.schlick (computations : Computations) : F :=
  let cos := computations.eye_vector.dot computations.normal_vector
  let cos2 :=
    if F.blt computations.n2 computations.n1 then
      let n := computations.n1 / computations.n2
      let sin2_t := n.powi 2 * (1 - cos.powi 2)
      if F.blt 1 sin2_t then none
      else some (F.sqrt (1 - sin2_t))
    else some cos
  match cos2 with
  | none => 1
  | some cosv =>
      let r0 := ((computations.n1 - computations.n2) /
        (computations.n1 + computations.n2)).powi 2
      r0 + (1 - r0) * (1 - cosv).powi 5

/-- Translation of `World`. -/
structure World where
  objects : List Shape
  lights : List Light

/-- Translation of `World::intersect_world`: concatenate every object's
hits, then sort ascending by t. -/
def World.intersect_world (w : World) (ray : Ray) : List Intersection :=
  sortByT (w.objects.foldl (fun acc o => acc ++ o.intersect ray) [])

/-- Translation of `World::is_shadowed`: one flag per light; shadowed iff
the hit of the ray toward the light is closer than the light and casts a
shadow. -/
def World.is_shadowed (w : World) (point : Tuple) : List Bool :=
  w.lights.map fun light =>
    let vector := light.position.sub point
    let distance := vector.magnitude
    let direction := vector.normalize
    let ray := Ray.mk point direction
    let intersections := w.intersect_world ray
    match Intersection.hit intersections with
    | some h => F.blt h.t distance && h.object.get_casts_shadow
    | none => false

/-- Translation of `World::reflected_color`, with the recursion made
explicit: `colorAtRec` stands for `color_at(-, remaining - 1)` and
`exhausted` for `remaining <= 0`; the guards are the source's. -/
def World.reflected_color (colorAtRec : Ray → Color) (exhausted : Bool)
    (reg : List Shape) (c : Computations) : Color :=
  let material := Shape.get_material (reg.length + 1) reg c.object
  if near_eq material.reflective 0 || exhausted then BLACK
  else
    let reflect_ray := Ray.mk c.over_point c.reflect_vector
    (colorAtRec reflect_ray).mulS material.reflective

/-- Translation of `World::refracted_color`, recursion explicit as above;
BLACK on zero transparency, exhausted depth, or total internal
reflection. -/
def World.refracted_color (colorAtRec : Ray → Color) (exhausted : Bool)
    (reg : List Shape) (c : Computations) : Color :=
  let material := Shape.get_material (reg.length + 1) reg c.object
  if near_eq material.transparency 0 || exhausted then BLACK
  else
    let nRat := c.n1 / c.n2
    let cos_i := c.eye_vector.dot c.normal_vector
    let sin2_t := nRat.powi 2 * (1 - cos_i.powi 2)
    if F.blt 1 sin2_t then BLACK
    else
      let cos_t := F.sqrt (1 - sin2_t)
      let direction := (c.normal_vector.mulS (nRat * cos_i - cos_t)).sub
        (c.eye_vector.mulS nRat)
      let refract_ray := Ray.mk c.under_point direction
      (colorAtRec refract_ray).mulS material.transparency

/-- Translation of `World::shade_hit`: Phong surface color summed per light
with its shadow flag, plus the reflected and refracted contributions,
Schlick-weighted when the material is both reflective and transparent. -/
def World.shade_hit (colorAtRec : Ray → Color) (exhausted : Bool)
    (reg : List Shape) (w : World) (c : Computations) : Color :=
  let shadowed := World.is_shadowed w c.over_point
  let material := Shape.get_material (reg.length + 1) reg c.object
  let surface := (w.lights.zip shadowed).foldl
    (fun acc ls => acc.add (material.lighting c.object ls.1 c.over_point
      c.eye_vector c.normal_vector ls.2)) BLACK
  let reflected := World.reflected_color colorAtRec exhausted reg c
  let refracted := World.refracted_color colorAtRec exhausted reg c
  if F.blt 0 material.reflective && F.blt 0 material.transparency then
    let reflectance := Intersection.schlick c
    (surface.add (reflected.mulS reflectance)).add
      (refracted.mulS (1 - reflectance))
  else (surface.add reflected).add refracted

/-- The body of `World::color_at`: BLACK when nothing is hit, otherwise
shade the hit. -/
def colorAtCore (colorAtRec : Ray → Color) (exhausted : Bool)
    (reg : List Shape) (w : World) (ray : Ray) : Color :=
  let intersections := w.intersect_world ray
  match Intersection.hit intersections with
  | none => BLACK
  | some h =>
      World.shade_hit colorAtRec exhausted reg w
        (h.prepare_computations reg ray intersections)

/-- Translation of `World::color_at` on a natural-number recursion budget.
The source's `remaining: i32` only ever feeds the tests `remaining <= 0`
and the recursive call at `remaining - 1`, so every nonpositive depth
behaves like 0 and the budget is modelled as the natural number
`max(remaining, 0)`. -/
def colorAtN (reg : List Shape) (w : World) : Nat → Ray → Color
  | 0, ray => colorAtCore (fun _ => BLACK) true reg w ray
  | n + 1, ray => colorAtCore (colorAtN reg w n) false reg w ray

/-- Translation of `World::color_at` at the source's `i32` interface. -/
def World.color_at (reg : List Shape) (w : World) (ray : Ray)
    (remaining : Int) : Color :=
  colorAtN reg w remaining.toNat ray

/-! ## Canvas and the portable pixmap serializer (src/canvas.rs) -/

/-- Translation of `Canvas`. -/
structure Canvas where
  width : Nat
  height : Nat
  pixels : List Color

/-- Translation of `Canvas::new` (all pixels BLACK). -/
def Canvas.new (width height : Nat) : Canvas :=
  ⟨width, height, List.replicate (width * height) BLACK⟩

/-- Translation of `Canvas::write_pixel` (row-major indexing); `List.set`
out of range is the identity where the source indexing would panic. -/
def Canvas.write_pixel (c : Canvas) (x y : Nat) (color : Color) : Canvas :=
  ⟨c.width, c.height, c.pixels.set (y * c.width + x) color⟩

/-- Translation of `Canvas::pixel_at`; reading out of range is BLACK where
the source would panic. -/
def Canvas.pixel_at (c : Canvas) (x y : Nat) : Color :=
  (c.pixels.get? (y * c.width + x)).getD BLACK

/-- Translation of `Canvas::scale_color`: clamp to [0, 1], scale by the
maximum color value 255, round. -/
def Canvas.scale_color (color_value : F) : Int :=
  if F.blt 1 color_value then 255
  else if F.blt color_value 0 then 0
  else (color_value * 255).round

/-- Decimal rendering of an `i32` (`to_string`). -/
def intRepr (i : Int) : String :=
  if i < 0 then "-" ++ (-i).toNat.repr else i.toNat.repr

/-- One component push of `canvas_to_ppm`: if the pending line plus the new
component would reach 70 columns, drop the trailing space, close the line
into the output, and start fresh; then append the component and a space. -/
def ppmPushComponent (st : String × String) (comp : String) : String × String :=
  let st2 :=
    if 70 ≤ st.2.length + comp.length then
      (st.1 ++ String.mk (st.2.data.dropLast ++ [Char.ofNat 10]), "")
    else st
  (st2.1, st2.2 ++ comp ++ " ")

/-- The per-pixel loop body of `canvas_to_ppm`: push the three scaled
components, and close the pending line at the end of each canvas row. -/
def ppmStep (width : Nat) (st : String × String) (pc : Nat × Color) :
    String × String :=
  let st1 := ppmPushComponent st (intRepr (Canvas.scale_color pc.2.red))
  let st2 := ppmPushComponent st1 (intRepr (Canvas.scale_color pc.2.green))
  let st3 := ppmPushComponent st2 (intRepr (Canvas.scale_color pc.2.blue))
  if (pc.1 + 1) % width == 0 then
    (st3.1 ++ String.mk (st3.2.data.dropLast ++ [Char.ofNat 10]), "")
  else st3

/-- Translation of `Canvas::canvas_to_ppm`: the `P3` header, then the pixel
data with lines wrapped before they reach 70 columns. -/
def Canvas.canvas_to_ppm (c : Canvas) : String :=
  let header := "P3" ++ String.mk [Char.ofNat 10] ++ c.width.repr ++ " " ++
    c.height.repr ++ String.mk [Char.ofNat 10] ++ "255" ++ String.mk [Char.ofNat 10]
  (c.pixels.enum.foldl (ppmStep c.width) (header, "")).1

/-- Split a string at newline characters (used only to state properties of
the serialized pixmap; the trailing newline yields no trailing entry). -/
def splitNl (s : String) : List String :=
  ((s.data.splitOn (Char.ofNat 10)).map String.mk).dropLast

/-- Split a string at spaces (used only to state the token property of the
serialized pixmap). -/
def splitSpace (s : String) : List String :=
  (s.data.splitOn (Char.ofNat 32)).map String.mk

/-! ## Camera (src/camera.rs) -/

/-- Translation of `Camera`.  `Camera::new` fills `half_width`,
`half_height` and `pixel_size` from `tan(field_of_view / 2)` and the aspect
ratio; the verified claims read these precomputed fields, so the tangent
itself is not modelled and the field of view is omitted. -/
structure Camera where
  hsize : Nat
  vsize : Nat
  transform : M4
  half_width : F
  half_height : F
  pixel_size : F

/-- The scalar one half (`0.5` in `ray_for_pixel`). -/
def halfF : F := ⟨1, 2, by norm_num⟩

/-- Translation of `Camera::ray_for_pixel`. -/
def Camera.ray_for_pixel (c : Camera) (px py : Nat) : Ray :=
  let x_offset := (F.ofInt px + halfF) * c.pixel_size
  let y_offset := (F.ofInt py + halfF) * c.pixel_size
  let world_x := c.half_width - x_offset
  let world_y := c.half_height - y_offset
  let pixel := c.transform.inverseD.mulT (Tuple.point world_x world_y (-1))
  let origin := c.transform.inverseD.mulT ORIGIN
  Ray.mk origin ((pixel.sub origin).normalize)

/-- Translation of `Camera::render`: allocate the canvas, then write
`world.color_at(ray_for_pixel(x, y))` for `y in 0..vsize - 1` and
`x in 0..hsize - 1` — both ranges exclusive of their upper bound as
written in the source.  The snapshot of src/camera.rs predates the
recursion-depth parameter of `World::color_at`; the spec fixes the depth at
`MAX_DEPTH = DEFAULT_RECURSION = 5`. -/
def Camera.render (c : Camera) (reg : List Shape) (w : World) : Canvas :=
  (List.range (c.vsize - 1)).foldl
    (fun image y =>
      (List.range (c.hsize - 1)).foldl
        (fun img x =>
          img.write_pixel x y (colorAtN reg w DEFAULT_RECURSION (c.ray_for_pixel x y)))
        image)
    (Canvas.new c.hsize c.vsize)

/-! ## The OBJ face records (src/obj_file.rs) -/

/-- Translation of `fan_triangulation`, reduced to the vertex triples the
emitted `Triangle::new` calls receive (the id assignment and the edge
precomputation of the triangle constructor carry no information about which
vertices are emitted).  Note that it loops over the whole vertex table
`2..vertices.len() - 1`, ignoring the face record's indices. -/
def fan_triangulation (vertices : List Tuple) : List (Tuple × Tuple × Tuple) :=
  (List.range' 2 (vertices.length - 1 - 2)).map fun index =>
    (vertices.getD 1 ORIGIN, vertices.getD index ORIGIN,
      vertices.getD (index + 1) ORIGIN)

/-- Translation of the face branch of `parse_obj_file` for a record without
vertex normals, given the vertex table (with the dummy origin at index 0)
and the parsed 1-based indices: more than three indices trigger
`fan_triangulation`, otherwise a single triangle over the three indexed
vertices.  An out-of-range index reads the dummy origin where the source
panics. -/
def processFaceNoNormals (vertices : List Tuple) (points : List Nat) :
    List (Tuple × Tuple × Tuple) :=
  if 3 < points.length then fan_triangulation vertices
  else
    [(vertices.getD (points.getD 0 0) ORIGIN,
      vertices.getD (points.getD 1 0) ORIGIN,
      vertices.getD (points.getD 2 0) ORIGIN)]

/-- Modelled from the spec: the fan triangulation over the face's own
indexed vertices, `(i1, i_k, i_{k+1})` for `k = 2..n-1` (section 6), used to
compare the source's behaviour against the specified one. -/
def fanSpec (vertices : List Tuple) (points : List Nat) :
    List (Tuple × Tuple × Tuple) :=
  (List.range' 1 (points.length - 2)).map fun k =>
    (vertices.getD (points.getD 0 0) ORIGIN,
      vertices.getD (points.getD k 0) ORIGIN,
      vertices.getD (points.getD (k + 1) 0) ORIGIN)

/-! ## BVH construction (src/group.rs, src/shape.rs)

`divide` threads two pieces of process-wide state: the `PARENT_REFERENCES`
registry (updated by `add_child`, `set_parent` on groups, and
`partition_children`) and the object-id counter that `Group::new` draws
from inside `make_subgroup`.  Both are passed and returned explicitly. -/

/-- Rebuild a shape with its base payload mapped. -/
def Shape.mapBase (f : ShapeBase → ShapeBase) : Shape → Shape
  | .sphere b => .sphere (f b)
  | .plane b => .plane (f b)
  | .cube b => .cube (f b)
  | .cylinder b mn mx c => .cylinder (f b) mn mx c
  | .cone b mn mx c => .cone (f b) mn mx c
  | .triangle b p1 p2 p3 e1 e2 nv => .triangle (f b) p1 p2 p3 e1 e2 nv
  | .smoothTriangle b p1 p2 p3 n1 n2 n3 e1 e2 nv =>
      .smoothTriangle (f b) p1 p2 p3 n1 n2 n3 e1 e2 nv
  | .group b cs => .group (f b) cs
  | .csg b op l r => .csg (f b) op l r
  | .testShape b => .testShape (f b)

/-- Translation of `update_group_reference`: replace (or append) the
canonical copy with the given id in the registry. -/
def update_group_reference (g : Shape) (reg : List Shape) : List Shape :=
  match reg.findIdx? (fun pr => pr.get_id == g.get_id) with
  | some i => reg.eraseIdx i ++ [g]
  | none => reg ++ [g]

/-- Translation of `CommonShape::set_parent`: set the parent id; a group
additionally refreshes its canonical registry copy. -/
def Shape.set_parent (s : Shape) (p : Int) (reg : List Shape) :
    Shape × List Shape :=
  let s2 := s.mapBase (fun b => ⟨b.id, b.transform, b.material, b.casts_shadow, some p⟩)
  match s2 with
  | .group _ _ => (s2, update_group_reference s2 reg)
  | _ => (s2, reg)

/-- Translation of `Group::add_child`: reparent the child to the group,
push it, and refresh the group's registry copy.  Returns the new child list
and registry. -/
def group_add_child (base : ShapeBase) (children : List Shape) (child : Shape)
    (reg : List Shape) : List Shape × List Shape :=
  let pr := child.set_parent base.id reg
  let children2 := children ++ [pr.1]
  (children2, update_group_reference (Shape.group base children2) pr.2)

/-- Translation of `Group::make_subgroup`: wrap the shapes in a fresh group
(`Group::new` draws a fresh id from the counter) and add it as a child.
Returns the enclosing group's new child list, the registry, and the
counter. -/
def group_make_subgroup (base : ShapeBase) (children : List Shape)
    (shapes : List Shape) (reg : List Shape) (ctr : Int) :
    List Shape × List Shape × Int :=
  let sgBase : ShapeBase := ⟨ctr, identity4, Material.default, true, none⟩
  let folded := shapes.foldl
    (fun (st : List Shape × List Shape) sh => group_add_child sgBase st.1 sh st.2)
    ([], reg)
  let subgroup := Shape.group sgBase folded.1
  let r := group_add_child base children subgroup folded.2
  (r.1, r.2, ctr + 1)

/-- Translation of `Group::partition_children`: split the group's bounds,
move the children wholly contained in one half into the matching list, keep
the straddlers, refresh the registry copy.  Returns (kept, left, right,
registry). -/
def group_partition_children (base : ShapeBase) (children : List Shape)
    (reg : List Shape) : List Shape × List Shape × List Shape × List Shape :=
  let boxes := (Shape.bounds_of (Shape.group base children)).split_bounds
  let r := children.foldl
    (fun (st : List Shape × List Shape × List Shape) ch =>
      if boxes.1.box_contains_box ch.parent_space_bounds_of then
        (st.1, st.2.1 ++ [ch], st.2.2)
      else if boxes.2.box_contains_box ch.parent_space_bounds_of then
        (st.1, st.2.1, st.2.2 ++ [ch])
      else (st.1 ++ [ch], st.2.1, st.2.2))
    ([], [], [])
  (r.1, r.2.1, r.2.2, update_group_reference (Shape.group base r.1) reg)

/-- Translation of `CommonShape::divide` and `Group::divide` merged into
one function: a group at or above the threshold partitions its children,
wraps the extracted halves in subgroups, then recurses into every child;
any other shape does nothing (the catch-all `_ => ()` arm of
src/shape.rs).  The recursion of the source is not structurally
terminating — when every child lands in the same half of a degenerate box
the subgroup is as large as its parent — so the model carries explicit
fuel, which exhausts only where the source would not terminate. -/
def Shape.divideFuel : Nat → Shape → Nat → List Shape → Int →
    Shape × List Shape × Int
  | 0, s, _, reg, ctr => (s, reg, ctr)
  | fuel + 1, s, threshold, reg, ctr =>
      match s with
      | .group base children =>
          let afterPart :=
            if threshold ≤ children.length then
              let p := group_partition_children base children reg
              let s1 :=
                if p.2.1.isEmpty then (p.1, p.2.2.2, ctr)
                else group_make_subgroup base p.1 p.2.1 p.2.2.2 ctr
              if p.2.2.1.isEmpty then s1
              else group_make_subgroup base s1.1 p.2.2.1 s1.2.1 s1.2.2
            else (children, reg, ctr)
          let folded := afterPart.1.foldl
            (fun (acc : List Shape × List Shape × Int) ch =>
              let r := Shape.divideFuel fuel ch threshold acc.2.1 acc.2.2
              (acc.1 ++ [r.1], r.2.1, r.2.2))
            ([], afterPart.2.1, afterPart.2.2)
          (Shape.group base folded.1, folded.2.1, folded.2.2)
      | _ => (s, reg, ctr)

/- The number of nodes of a shape tree (the fuel source for `divide`). -/

mutual

/-- See the comment above the mutual block. -/
def Shape.size : Shape → Nat
  | .group _ children => 1 + sizeList children
  | .csg _ _ l r => 1 + Shape.size l + Shape.size r
  | _ => 1

def sizeList : List Shape → Nat
  | [] => 0
  | c :: cs => Shape.size c + sizeList cs

end

/-- Translation of `CommonShape::divide` at the call interface: the fuel is
positive, so the dispatcher's match is always taken; it covers every
non-degenerate partition (the source itself diverges on the degenerate
ones). -/
def Shape.divide (s : Shape) (threshold : Nat) (reg : List Shape) (ctr : Int) :
    Shape × List Shape × Int :=
  Shape.divideFuel (s.size * (threshold + 2) + 1) s threshold reg ctr

/-! ## Transformations (src/transformation.rs) and exhibits

The concrete scenes below instantiate the verified statements; each is a
direct description of a scene the source could build. -/

/-- Translation of `transformation::translate`. -/
def translate (x y z : F) : M4 :=
  ⟨⟨1, 0, 0, x⟩, ⟨0, 1, 0, y⟩, ⟨0, 0, 1, z⟩, ⟨0, 0, 0, 1⟩⟩

/-- Whether a shape is a group (the only variant `divide` acts on). -/
def Shape.isGroup : Shape → Bool
  | .group _ _ => true
  | _ => false

/-- Modelled from the spec: the walk over the sorted hits described for
`filter_intersections` — test each hit with the operation table in the
current insideness state, then toggle the side the hit belongs to.  Stated
recursively as the spec phrases it, to be compared with the source's
fold. -/
def filterWalkSpec (left : Shape) (operation : String) :
    Bool → Bool → List Intersection → List Intersection
  | _, _, [] => []
  | inl, inr, i :: is =>
      let lhit := left.includes i.object
      let rest :=
        if lhit then filterWalkSpec left operation (!inl) inr is
        else filterWalkSpec left operation inl (!inr) is
      if intersection_allowed operation lhit inl inr then i :: rest else rest

/-- A unit sphere with the default material at the origin. -/
def sph1 : Shape := .sphere ⟨1, identity4, Material.default, true, none⟩

/-- A ray from z = -5 toward the origin. -/
def ray1 : Ray := ⟨Tuple.point 0 0 (-5), Tuple.vector 0 0 1⟩

/-- A ray from z = 5 pointing away from every object of the worlds below. -/
def rayMissC2 : Ray := ⟨Tuple.point 0 0 5, Tuple.vector 0 0 1⟩

/-- A world of one default sphere lit from z = -6. -/
def wC2 : World := ⟨[sph1], [⟨Tuple.point 0 0 (-6), WHITE⟩]⟩

/-- A 2x2 camera at the origin with unit pixel size. -/
def camC1 : Camera := ⟨2, 2, identity4, 1, 1, 1⟩

/-- A sphere in front of the origin that casts no shadow. -/
def sphC4near : Shape :=
  .sphere ⟨2, translate 0 0 (-3), Material.default, false, none⟩

/-- A sphere behind it that does cast a shadow. -/
def sphC4far : Shape :=
  .sphere ⟨3, translate 0 0 (-6), Material.default, true, none⟩

/-- A point light at z = -10. -/
def lightC4 : Light := ⟨Tuple.point 0 0 (-10), WHITE⟩

/-- Both spheres between the origin and the light. -/
def wC4 : World := ⟨[sphC4near, sphC4far], [lightC4]⟩

/-- Only the shadow-casting sphere between the origin and the light. -/
def wC4only : World := ⟨[sphC4far], [lightC4]⟩

/-- An uncapped cylinder truncated to 1 < y < 2. -/
def cylC9 : Shape :=
  .cylinder ⟨4, identity4, Material.default, true, none⟩ (.fin 1) (.fin 2) false

/-- A ray up the bore of the cylinder. -/
def rayC9 : Ray := ⟨Tuple.point 0 (-2) 0, Tuple.vector 0 1 0⟩

/-- An OBJ vertex table of five vertices (index 0 is the parser's dummy
origin). -/
def vtC6 : List Tuple := [ORIGIN, Tuple.point 1 0 0, Tuple.point 2 0 0,
  Tuple.point 3 0 0, Tuple.point 4 0 0, Tuple.point 5 0 0]

/-- A four-vertex face record over the first four vertices. -/
def faceC6 : List Nat := [1, 2, 3, 4]

/-- The color (1.0, 0.8, 0.6) of the pixmap-wrap scenario. -/
def colorC8 : Color := ⟨1, ⟨4, 5, by norm_num⟩, ⟨3, 5, by norm_num⟩⟩

/-- A 10x2 canvas of that color. -/
def canvasC8 : Canvas := ⟨10, 2, List.replicate 20 colorC8⟩

/-! ## Properties of the scalar model

The lemmas here transport the exact fraction arithmetic of `F` to ℚ, where
the algebraic reasoning happens. -/

theorem F.dpos_ne (a : F) : (a.d : ℚ) ≠ 0 := Int.cast_ne_zero.mpr (ne_of_gt a.pos)

/-- Cancelling a common positive factor of numerator and denominator keeps the
rational value. -/
theorem ratDivCancel {g n d : Int} (hg : 0 < g) (hgn : g ∣ n) (hgd : g ∣ d) :
    ((n / g : Int) : ℚ) / ((d / g : Int) : ℚ) = (n : ℚ) / (d : ℚ) := by
  obtain ⟨p, rfl⟩ := hgn
  obtain ⟨q, rfl⟩ := hgd
  have hgne : g ≠ 0 := ne_of_gt hg
  rw [Int.mul_ediv_cancel_left p hgne, Int.mul_ediv_cancel_left q hgne]
  push_cast
  rw [mul_div_mul_left _ _ (by exact_mod_cast hgne : ((g:ℚ) ≠ 0))]

/-- The denotation of `F.mk'` is the plain quotient: the cancelled factor
divides both components. -/
theorem F.toRat_mk' (n d : Int) (hd : 0 < d) :
    (F.mk' n d hd).toRat = (n : ℚ) / (d : ℚ) := by
  have hg : (0:Int) < ((n.natAbs.gcd d.natAbs : Nat) : Int) := by
    have h1 : 0 < d.natAbs := Int.natAbs_pos.mpr (ne_of_gt hd)
    exact_mod_cast Nat.gcd_pos_of_pos_right n.natAbs h1
  have hgn : ((n.natAbs.gcd d.natAbs : Nat) : Int) ∣ n :=
    Int.natCast_dvd.mpr (Nat.gcd_dvd_left _ _)
  have hgd : ((n.natAbs.gcd d.natAbs : Nat) : Int) ∣ d :=
    Int.natCast_dvd.mpr (Nat.gcd_dvd_right _ _)
  show ((n / ((n.natAbs.gcd d.natAbs : Nat) : Int) : Int) : ℚ) /
      ((d / ((n.natAbs.gcd d.natAbs : Nat) : Int) : Int) : ℚ) = (n : ℚ) / (d : ℚ)
  exact ratDivCancel hg hgn hgd

theorem F.toRat_ofInt (i : Int) : (F.ofInt i).toRat = (i : ℚ) := by
  simp [F.ofInt, F.toRat]

theorem F.toRat_add (a b : F) : (a + b).toRat = a.toRat + b.toRat := by
  show (F.add a b).toRat = a.toRat + b.toRat
  have ha' := a.dpos_ne
  have hb' := b.dpos_ne
  unfold F.add
  rw [F.toRat_mk']
  unfold F.toRat
  push_cast
  field_simp
  try ring

theorem F.toRat_sub (a b : F) : (a - b).toRat = a.toRat - b.toRat := by
  show (F.sub a b).toRat = a.toRat - b.toRat
  have ha' := a.dpos_ne
  have hb' := b.dpos_ne
  unfold F.sub
  rw [F.toRat_mk']
  unfold F.toRat
  push_cast
  field_simp
  try ring

theorem F.toRat_mul (a b : F) : (a * b).toRat = a.toRat * b.toRat := by
  show (F.mul a b).toRat = a.toRat * b.toRat
  have ha' := a.dpos_ne
  have hb' := b.dpos_ne
  unfold F.mul
  rw [F.toRat_mk']
  unfold F.toRat
  push_cast
  field_simp

theorem F.toRat_neg (a : F) : (-a).toRat = -a.toRat := by
  show F.toRat ⟨-a.n, a.d, a.pos⟩ = -a.toRat
  unfold F.toRat
  push_cast
  ring

theorem F.toRat_abs (a : F) : (F.abs a).toRat = |a.toRat| := by
  unfold F.abs F.toRat
  rw [abs_div, abs_of_pos (by exact_mod_cast a.pos : (0:ℚ) < a.d)]
  push_cast
  rfl

theorem F.toRat_powi (a : F) (k : Nat) : (a.powi k).toRat = a.toRat ^ k := by
  unfold F.powi F.toRat
  push_cast
  rw [div_pow]

theorem F.toRat_div {b : F} (hn : b.n ≠ 0) (a : F) :
    (a / b).toRat = a.toRat / b.toRat := by
  show (F.div a b).toRat = a.toRat / b.toRat
  have ha' := a.dpos_ne
  have hb' := b.dpos_ne
  have hn' : (b.n : ℚ) ≠ 0 := Int.cast_ne_zero.mpr hn
  unfold F.div
  rcases lt_trichotomy b.n 0 with h | h | h
  · rw [dif_neg (by omega), dif_pos h, F.toRat_mk']
    unfold F.toRat
    push_cast
    field_simp
    try ring
  · exact absurd h hn
  · rw [dif_pos h, F.toRat_mk']
    unfold F.toRat
    push_cast
    field_simp
    try ring

theorem F.blt_iff (a b : F) : F.blt a b = true ↔ a.toRat < b.toRat := by
  unfold F.blt F.toRat
  rw [div_lt_div_iff₀ (by exact_mod_cast a.pos) (by exact_mod_cast b.pos)]
  rw [decide_eq_true_eq]
  exact_mod_cast Iff.rfl

theorem F.toRat_epsilon : EPSILON.toRat = 1 / 100000 := by
  norm_num [EPSILON, F.toRat]

theorem F.near_eq_iff (a b : F) :
    near_eq a b = true ↔ |a.toRat - b.toRat| < 1 / 100000 := by
  unfold near_eq
  rw [F.blt_iff, F.toRat_abs, F.toRat_epsilon]
  rw [show F.sub a b = a - b from rfl, F.toRat_sub]

theorem F.near_eq_of_toRat_eq {a b : F} (h : a.toRat = b.toRat) :
    near_eq a b = true := by
  rw [F.near_eq_iff, h, sub_self, abs_zero]
  norm_num

/-- The numerator of a scalar that fails `near_eq` with 0 is nonzero. -/
theorem F.n_ne_zero_of_not_near_eq_zero {a : F}
    (h : near_eq a (F.ofInt 0) = false) : a.n ≠ 0 := by
  intro hz
  have : near_eq a (F.ofInt 0) = true := by
    apply F.near_eq_of_toRat_eq
    rw [F.toRat_ofInt]
    unfold F.toRat
    rw [hz]
    norm_num
  rw [this] at h
  exact absurd h (by simp)

/-- Value of the coercion of the `Fin 4` literal 0. -/
theorem finval4_0 : ((0 : Fin 4) : ℕ) = 0 := rfl

/-- Value of the coercion of the `Fin 4` literal 1. -/
theorem finval4_1 : ((1 : Fin 4) : ℕ) = 1 := rfl

/-- Value of the coercion of the `Fin 4` literal 2. -/
theorem finval4_2 : ((2 : Fin 4) : ℕ) = 2 := rfl

/-- Value of the coercion of the `Fin 4` literal 3. -/
theorem finval4_3 : ((3 : Fin 4) : ℕ) = 3 := rfl

/-- Value of the coercion of the `Fin 3` literal 0. -/
theorem finval3_0 : ((0 : Fin 3) : ℕ) = 0 := rfl

/-- Value of the coercion of the `Fin 3` literal 1. -/
theorem finval3_1 : ((1 : Fin 3) : ℕ) = 1 := rfl

/-- Value of the coercion of the `Fin 3` literal 2. -/
theorem finval3_2 : ((2 : Fin 3) : ℕ) = 2 := rfl

/-- Comparison by cross multiplication is reflexive. -/
theorem F.ble_refl (a : F) : F.ble a a = true := by simp [F.ble]

/-! ## Helper lemmas for the claims -/

/-- Row-major pixel indices are unique: equal flat indices force equal
coordinates when both columns are in range. -/
theorem rowcol_unique {hs y x yp xp : Nat} (hx : x < hs) (hxp : xp < hs)
    (heq : y * hs + x = yp * hs + xp) : y = yp ∧ x = xp := by
  rcases lt_trichotomy y yp with h | h | h
  · exfalso
    obtain ⟨k, rfl⟩ : ∃ k, yp = y + (k + 1) := ⟨yp - y - 1, by omega⟩
    rw [Nat.add_mul] at heq
    have h2 : hs ≤ (k + 1) * hs := Nat.le_mul_of_pos_left hs (Nat.succ_pos k)
    omega
  · subst h
    omega
  · exfalso
    obtain ⟨k, rfl⟩ : ∃ k, y = yp + (k + 1) := ⟨y - yp - 1, by omega⟩
    rw [Nat.add_mul] at heq
    have h2 : hs ≤ (k + 1) * hs := Nat.le_mul_of_pos_left hs (Nat.succ_pos k)
    omega

/-- Writing one pixel leaves every other flat index unchanged. -/
theorem write_pixel_get_other (c : Canvas) (x y : Nat) (col : Color) (idx : Nat)
    (h : idx ≠ y * c.width + x) :
    (c.write_pixel x y col).pixels.get? idx = c.pixels.get? idx :=
  List.get?_set_ne col c.pixels (fun he => h he.symm)

/-- The row loop of `render` leaves every index outside the written row
segment unchanged, and preserves the width. -/
theorem render_row_fold (f : Nat → Color) (y : Nat) :
    ∀ (xs : List Nat) (img : Canvas) (idx : Nat),
      (∀ x ∈ xs, idx ≠ y * img.width + x) →
      (xs.foldl (fun im x => im.write_pixel x y (f x)) img).pixels.get? idx =
        img.pixels.get? idx ∧
      (xs.foldl (fun im x => im.write_pixel x y (f x)) img).width = img.width := by
  intro xs
  induction xs with
  | nil => intro img idx _; exact ⟨rfl, rfl⟩
  | cons a tl ih =>
      intro img idx h
      simp only [List.foldl_cons]
      have step := ih (img.write_pixel a y (f a)) idx
        (fun x hx => h x (List.mem_cons_of_mem a hx))
      refine ⟨?_, step.2⟩
      rw [step.1, write_pixel_get_other]
      exact h a (List.mem_cons_self a tl)

/-- The full pixel grid loop of `render` leaves every index outside the
written rectangle unchanged. -/
theorem render_grid_fold (g : Nat → Nat → Color) (hs : Nat) :
    ∀ (ys : List Nat) (img : Canvas) (idx : Nat), img.width = hs →
      (∀ y ∈ ys, ∀ x, x < hs - 1 → idx ≠ y * hs + x) →
      (ys.foldl (fun image y => (List.range (hs - 1)).foldl
          (fun im x => im.write_pixel x y (g x y)) image) img).pixels.get? idx =
        img.pixels.get? idx ∧
      (ys.foldl (fun image y => (List.range (hs - 1)).foldl
          (fun im x => im.write_pixel x y (g x y)) image) img).width = hs := by
  intro ys
  induction ys with
  | nil => intro img idx hw _; exact ⟨rfl, hw⟩
  | cons b tl ih =>
      intro img idx hw h
      simp only [List.foldl_cons]
      have row := render_row_fold (fun x => g x b) b (List.range (hs - 1)) img idx
        (by
          intro x hx
          rw [hw]
          exact h b (List.mem_cons_self b tl) x (List.mem_range.mp hx))
      have step := ih ((List.range (hs - 1)).foldl
          (fun im x => im.write_pixel x b (g x b)) img) idx
        (row.2.trans hw)
        (fun y hy x hxlt => h y (List.mem_cons_of_mem b hy) x hxlt)
      exact ⟨step.1.trans row.1, step.2⟩

/-- Reading a freshly allocated canvas gives BLACK at every index. -/
theorem getD_of_replicate_black (n i : Nat) :
    ((List.replicate n BLACK).get? i).getD BLACK = BLACK := by
  cases hm : (List.replicate n BLACK).get? i with
  | none => rfl
  | some c =>
      have := List.eq_of_mem_replicate (List.get?_mem hm)
      simp [this]

/-- On a list sorted ascending by t, the first strictly positive entry is
minimal among the strictly positive entries. -/
theorem hitSortedAux :
    ∀ (l : List Intersection), l.Pairwise tleI → ∀ h, Intersection.hit l = some h →
      h ∈ l ∧ F.blt 0 h.t = true ∧ ∀ i ∈ l, F.blt 0 i.t = true → tleI h i := by
  intro l
  induction l with
  | nil => intro _ h hsome; simp [Intersection.hit] at hsome
  | cons a tl ih =>
      intro hp h hsome
      rw [List.pairwise_cons] at hp
      unfold Intersection.hit at hsome
      by_cases hpa : F.blt 0 a.t = true
      · rw [List.find?_cons_of_pos tl hpa] at hsome
        injection hsome with he
        subst he
        refine ⟨List.mem_cons_self a tl, hpa, ?_⟩
        intro i hi _
        rcases List.mem_cons.mp hi with he2 | hmem
        · subst he2; exact F.ble_refl _
        · exact hp.1 i hmem
      · rw [List.find?_cons_of_neg tl hpa] at hsome
        have r := ih hp.2 h hsome
        refine ⟨List.mem_cons_of_mem a r.1, r.2.1, ?_⟩
        intro i hi hpos
        rcases List.mem_cons.mp hi with he2 | hmem
        · subst he2; exact absurd hpos hpa
        · exact r.2.2 i hmem hpos

/-- The filter fold of `filter_intersections` computes the recursive walk of
the specification, relative to any accumulator. -/
theorem filter_fold_spec (left : Shape) (operation : String) :
    ∀ (l : List Intersection) (inl inr : Bool) (acc : List Intersection),
      (l.foldl (filterStep left operation) (inl, inr, acc)).2.2 =
        acc ++ filterWalkSpec left operation inl inr l := by
  intro l
  induction l with
  | nil => intro inl inr acc; simp [filterWalkSpec]
  | cons i is ih =>
      intro inl inr acc
      simp only [List.foldl_cons]
      unfold filterWalkSpec
      by_cases hlh : left.includes i.object = true
      · rw [show filterStep left operation (inl, inr, acc) i =
            (!inl, inr,
              if intersection_allowed operation true inl inr = true then acc ++ [i]
              else acc) by unfold filterStep; rw [hlh]; simp]
        by_cases hal : intersection_allowed operation true inl inr = true
        · simp [hlh, hal, ih, List.append_assoc]
        · simp [hlh, hal, ih, List.append_assoc]
      · rw [show filterStep left operation (inl, inr, acc) i =
            (inl, !inr,
              if intersection_allowed operation false inl inr = true then acc ++ [i]
              else acc) by
          unfold filterStep
          rw [show left.includes i.object = false by simpa using hlh]
          simp]
        rw [show left.includes i.object = false by simpa using hlh]
        by_cases hal : intersection_allowed operation false inl inr = true
        · simp [hal, ih, List.append_assoc]
        · simp [hal, ih, List.append_assoc]


/-! ## The claims -/

/-- C1: the spec says `render` writes `color_at(ray_for_pixel(x, y))` into
every pixel (x, y) with x < hsize and y < vsize.  The source loops over
`0..vsize - 1` and `0..hsize - 1`, both exclusive, so the last row and the
last column of the canvas are never written and keep the allocation color
BLACK — while `color_at` along that column is not BLACK in a scene whose
sphere covers it. -/
theorem render_skips_last_row_and_column :
    (∀ (cam : Camera) (reg : List Shape) (w : World) (x y : Nat),
        x < cam.hsize → y < cam.vsize →
        (x = cam.hsize - 1 ∨ y = cam.vsize - 1) →
        (cam.render reg w).pixel_at x y = BLACK) ∧
    Color.beq (colorAtN [] wC2 DEFAULT_RECURSION (camC1.ray_for_pixel 1 1))
      BLACK = false := by
  constructor
  · intro cam reg w x y hx hy hxy
    unfold Camera.render Canvas.pixel_at
    have grid := render_grid_fold
      (fun x y => colorAtN reg w DEFAULT_RECURSION (cam.ray_for_pixel x y))
      cam.hsize (List.range (cam.vsize - 1)) (Canvas.new cam.hsize cam.vsize)
      (y * cam.hsize + x) rfl
      (by
        intro yp hyp xp hxp heq
        have hyp2 := List.mem_range.mp hyp
        have h2 := rowcol_unique hx (by omega : xp < cam.hsize) heq
        omega)
    rw [grid.2, grid.1]
    exact getD_of_replicate_black _ _
  · decide

/-- Witness for C1: the bottom-right pixel of a rendered 2x2 canvas stays
BLACK. -/
theorem render_skips_witness :
    (camC1.render [] wC2).pixel_at 1 1 = BLACK :=
  render_skips_last_row_and_column.1 camC1 [] wC2 1 1 (by decide) (by decide)
    (Or.inl (by decide))

/-- C2 counterexample: at depth 0 the source's `color_at` does not return
BLACK on a ray that hits the default sphere — it still shades the surface;
only the reflected and refracted contributions are suppressed. -/
theorem color_at_depth_zero_not_black :
    Color.beq (World.color_at [] wC2 ray1 0) BLACK = false ∧
    (Intersection.hit (wC2.intersect_world ray1)).isSome = true := by
  constructor
  · decide
  · decide

/-- C2 (amended): a nonpositive depth behaves exactly like depth 0; at
exhausted depth the reflected and refracted contributions are BLACK, and
`color_at` is BLACK precisely on the no-hit path — not on every ray. -/
theorem color_at_depth_exhausted_behavior :
    (∀ (w : World) (ray : Ray) (reg : List Shape) (d : Int), d ≤ 0 →
        World.color_at reg w ray d = colorAtCore (fun _ => BLACK) true reg w ray) ∧
    (∀ (rec : Ray → Color) (reg : List Shape) (c : Computations),
        World.reflected_color rec true reg c = BLACK) ∧
    (∀ (rec : Ray → Color) (reg : List Shape) (c : Computations),
        World.refracted_color rec true reg c = BLACK) ∧
    (∀ (reg : List Shape) (w : World) (ray : Ray),
        Intersection.hit (w.intersect_world ray) = none →
        colorAtCore (fun _ => BLACK) true reg w ray = BLACK) := by
  refine ⟨?_, ?_, ?_, ?_⟩
  · intro w ray reg d hd
    unfold World.color_at
    rw [Int.toNat_of_nonpos hd]
    rfl
  · intro rec reg c
    unfold World.reflected_color
    simp
  · intro rec reg c
    unfold World.refracted_color
    simp
  · intro reg w ray h
    unfold colorAtCore
    simp [h]

/-- Witness for C2: depth -3 equals the depth-0 computation, and a ray that
misses every object yields BLACK. -/
theorem color_at_depth_exhausted_witness :
    World.color_at [] wC2 ray1 (-3) = colorAtCore (fun _ => BLACK) true [] wC2 ray1 ∧
    colorAtCore (fun _ => BLACK) true [] wC2 rayMissC2 = BLACK :=
  ⟨color_at_depth_exhausted_behavior.1 wC2 ray1 [] (-3) (by decide),
   color_at_depth_exhausted_behavior.2.2.2 [] wC2 rayMissC2 (by rfl)⟩

/-- C3: on a list sorted ascending by t, `hit` returns none exactly when no
entry has t > 0, and otherwise returns an element of the list with strictly
positive t that is minimal among the strictly positive entries — the first
such entry of the sorted list. -/
theorem hit_first_positive_of_sorted :
    ∀ (l : List Intersection), l.Pairwise tleI →
      (Intersection.hit l = none ↔ ∀ i ∈ l, F.blt 0 i.t = false) ∧
      (∀ h, Intersection.hit l = some h →
        h ∈ l ∧ F.blt 0 h.t = true ∧ ∀ i ∈ l, F.blt 0 i.t = true → tleI h i) := by
  intro l hp
  refine ⟨?_, hitSortedAux l hp⟩
  unfold Intersection.hit
  rw [List.find?_eq_none]
  constructor
  · intro hh i hi
    have := hh i hi
    simpa using this
  · intro hh i hi
    simp [hh i hi]

/-- Witness for C3: a list whose only entry has negative t yields no hit. -/
theorem hit_first_positive_witness :
    Intersection.hit [Intersection.mkTI (-1) sph1] = none :=
  (hit_first_positive_of_sorted [Intersection.mkTI (-1) sph1] (by decide)).1.mpr
    (by decide)

/-- C4 counterexample: a shadow-casting sphere sits between the point and
the light at t = 5 of distance 10, yet `is_shadowed` reports false, because
the closer non-casting sphere owns the hit that the source consults. -/
theorem is_shadowed_ignores_far_occluder :
    wC4.is_shadowed ORIGIN = [false] ∧
    (wC4.intersect_world
        (Ray.mk ORIGIN ((lightC4.position.sub ORIGIN).normalize))).any
      (fun i => F.blt 0 i.t && F.blt i.t (lightC4.position.sub ORIGIN).magnitude &&
        i.object.get_casts_shadow) = true := by
  constructor
  · decide
  · decide

/-- C4 (amended): per light, `is_shadowed` consults only the hit — the first
strictly positive intersection — of the ray toward the light: the flag is
false whenever every intersection closer than the light belongs to a
non-casting object, and true exactly when that hit is closer than the light
and casts a shadow.  A casting occluder hidden behind a closer non-casting
object does not flip the flag. -/
theorem is_shadowed_hit_characterization :
    ∀ (w : World) (point : Tuple) (k : Nat) (light : Light),
      w.lights.get? k = some light →
      ((∀ i ∈ w.intersect_world
            (Ray.mk point ((light.position.sub point).normalize)),
          F.blt i.t (light.position.sub point).magnitude = true →
          i.object.get_casts_shadow = false) →
        (w.is_shadowed point).get? k = some false) ∧
      (∀ h, Intersection.hit (w.intersect_world
            (Ray.mk point ((light.position.sub point).normalize))) = some h →
        F.blt h.t (light.position.sub point).magnitude = true →
        h.object.get_casts_shadow = true →
        (w.is_shadowed point).get? k = some true) := by
  intro w point k light hk
  unfold World.is_shadowed
  rw [List.get?_map, hk, Option.map_some']
  constructor
  · intro hall
    cases hhit : Intersection.hit
        (w.intersect_world (Ray.mk point ((light.position.sub point).normalize))) with
    | none => simp [hhit]
    | some h =>
        have hmem := List.mem_of_find?_eq_some hhit
        simp only [hhit]
        by_cases hblt : F.blt h.t (light.position.sub point).magnitude = true
        · rw [hall h hmem hblt]
          simp [hblt]
        · simp at hblt
          simp [hblt]
  · intro h hhit hblt hcast
    simp only [hhit]
    simp [hblt, hcast]

/-- Witness for C4: with only the casting sphere present the flag flips to
true. -/
theorem is_shadowed_hit_witness :
    (wC4only.is_shadowed ORIGIN).get? 0 = some true :=
  (is_shadowed_hit_characterization wC4only ORIGIN 0 lightC4 rfl).2
    (Intersection.mkTI 5 sphC4far) (by rfl) (by decide) (by rfl)

/-- C5 counterexample: `new_inverse` stores the inverse under the *source*
matrix's cache identity, so inverting a matrix that was itself produced by
`inverse()` hits the cache and returns that matrix itself: for the scale-2
matrix, the second inversion is invertible by the determinant test yet the
product with its claimed inverse is not the identity. -/
theorem inverse_of_cached_inverse_not_identity :
    ((MatrixE.inverse ⟨1, diagM⟩ []).1.bind (fun b =>
       (MatrixE.inverse b (MatrixE.inverse ⟨1, diagM⟩ []).2).1.map (fun binv =>
         (near_eq b.m.determinant 0 == false) &&
           !(M4.beq (b.m.mul binv.m) identity4)))) = some true := by decide

/-- C5 (amended): on a cache miss, for every matrix whose determinant passes
the near-zero test, `inverse` returns the adjugate-over-determinant inverse
under the same identity, and the product of the matrix with that inverse is
the identity elementwise within EPSILON.  The cached path is exempt: an
entry stored under a reused identity is returned as is (see the
counterexample). -/
theorem mul_inverse_on_cache_miss (a : MatrixE) (cache : List MatrixE)
    (hmiss : cache.find? (fun ci => ci.id == a.id) = none)
    (hdet : near_eq a.m.determinant 0 = false) :
    (MatrixE.inverse a cache).1 = some ⟨a.id, a.m.inverseCore⟩ ∧
    M4.beq (a.m.mul a.m.inverseCore) identity4 = true := by
  have hdn : a.m.determinant.n ≠ 0 := F.n_ne_zero_of_not_near_eq_zero hdet
  have hdr : a.m.determinant.toRat ≠ 0 := by
    unfold F.toRat
    exact div_ne_zero (Int.cast_ne_zero.mpr hdn) a.m.determinant.dpos_ne
  constructor
  · unfold MatrixE.inverse
    rw [hmiss, hdet]
    simp
  · unfold M4.beq
    simp only [Bool.and_eq_true]
    refine ⟨⟨⟨⟨⟨⟨⟨⟨⟨⟨⟨⟨⟨⟨⟨?_, ?_⟩, ?_⟩, ?_⟩, ?_⟩, ?_⟩, ?_⟩, ?_⟩, ?_⟩, ?_⟩, ?_⟩, ?_⟩, ?_⟩, ?_⟩, ?_⟩, ?_⟩
    all_goals
    · apply F.near_eq_of_toRat_eq
      simp only [M4.mul, M4.inverseCore, mulRC, identity4, F.toRat_add,
        F.toRat_mul, F.toRat_div hdn]
      simp only [← mul_div_assoc, div_add_div_same]
      rw [div_eq_iff hdr]
      simp only [M4.determinant, M4.cofactor, M4.minor, M4.submatrix,
        V4.dropAt, M3.determinant, M3.cofactor, M3.minor, M3.submatrix,
        V3.dropAt, M2.determinant, finval4_0, finval4_1, finval4_2, finval4_3,
        finval3_0, finval3_1, finval3_2, Nat.reduceMod, Nat.reduceAdd,
        Nat.reduceBEq, beq_iff_eq, reduceIte, Bool.false_eq_true,
        Bool.true_eq_false, if_true, if_false, ite_true, ite_false,
        F.toRat_add, F.toRat_sub, F.toRat_mul, F.toRat_neg, F.toRat_ofInt,
        Nat.reduceEqDiff, zero_add]
      try rw [show (OfNat.ofNat 0 : F).toRat = (0:ℚ) by
        norm_num [OfNat.ofNat, F.ofInt, F.toRat]]
      try rw [show (OfNat.ofNat 1 : F).toRat = (1:ℚ) by
        norm_num [OfNat.ofNat, F.ofInt, F.toRat]]
      ring

/-- Witness for C5: a dense invertible matrix inverted against the empty
cache. -/
theorem mul_inverse_on_cache_miss_witness :
    (MatrixE.inverse ⟨7, testM⟩ []).1 = some ⟨7, testM.inverseCore⟩ ∧
    M4.beq (testM.mul testM.inverseCore) identity4 = true :=
  mul_inverse_on_cache_miss ⟨7, testM⟩ [] (by rfl) (by decide)

/-- C6: the source's `fan_triangulation` loops over `2..vertices.len() - 1`
of the whole vertex table instead of the face's index list: a four-index
face over a five-vertex table emits 3 triangles — not the specified
n - 2 = 2 — and its last triangle reads vertex 5, which the face does not
reference. -/
theorem fan_triangulation_ignores_face_indices :
    (processFaceNoNormals vtC6 faceC6).length = 3 ∧
    (fanSpec vtC6 faceC6).length = 2 ∧
    ((processFaceNoNormals vtC6 faceC6).getD 2 (ORIGIN, ORIGIN, ORIGIN)).2.2.beq
      (Tuple.point 5 0 0) = true := by
  refine ⟨?_, ?_, ?_⟩
  · decide
  · decide
  · decide

/-- C7: `intersection_allowed` computes exactly the specified truth table
for the three operations, and `filter_intersections` performs the specified
walk: test each hit against the table in the current insideness state, then
toggle the side the hit belongs to. -/
theorem csg_filter_table_and_walk :
    (∀ left_hit inside_left inside_right : Bool,
      intersection_allowed "union" left_hit inside_left inside_right =
        ((left_hit && !inside_right) || (!left_hit && !inside_left)) ∧
      intersection_allowed "intersection" left_hit inside_left inside_right =
        ((left_hit && inside_right) || (!left_hit && inside_left)) ∧
      intersection_allowed "difference" left_hit inside_left inside_right =
        ((left_hit && !inside_right) || (!left_hit && inside_left))) ∧
    (∀ (left : Shape) (operation : String) (l : List Intersection),
      filter_intersections left operation l =
        filterWalkSpec left operation false false l) := by
  constructor
  · decide
  · intro left operation l
    unfold filter_intersections
    rw [filter_fold_spec]
    rfl

/-- C8 counterexample: the pixel-data lines of the 10x2 canvas of
(1.0, 0.8, 0.6) are not all 66 characters long. -/
theorem ppm_lines_not_66 :
    ((splitNl canvasC8.canvas_to_ppm).drop 3).map String.length ≠
      [66, 66, 66, 66] := by decide

/-- C8 (amended): that canvas serializes to a three-line header and exactly
four pixel-data lines of lengths 67, 51, 67, 51; every line stays within 70
characters and every space-separated token is one of the three complete
component values 255, 204, 153 — no number is split across a line break. -/
theorem ppm_wrap_lengths :
    (splitNl canvasC8.canvas_to_ppm).take 3 = ["P3", "10 2", "255"] ∧
    ((splitNl canvasC8.canvas_to_ppm).drop 3).map String.length =
      [67, 51, 67, 51] ∧
    ((splitNl canvasC8.canvas_to_ppm).drop 3).all
      (fun line => Nat.ble line.length 70) = true ∧
    ((splitNl canvasC8.canvas_to_ppm).drop 3).all
      (fun line => (splitSpace line).all
        (fun tok => tok == "255" || tok == "204" || tok == "153")) = true := by
  refine ⟨?_, ?_, ?_, ?_⟩
  · decide
  · decide
  · decide
  · decide

/-- C9: an uncapped cylinder reports no intersections for a ray whose
direction is within EPSILON of parallel to the y axis, regardless of the
ray's origin and of the truncation extents: the lateral quadratic is skipped
and the cap test is disabled. -/
theorem open_cylinder_bore_miss :
    ∀ (self : Shape) (minimum maximum : XF) (ray : Ray),
      near_eq (ray.direction.x.powi 2 + ray.direction.z.powi 2) 0 = true →
      cylinderIntersect self minimum maximum false ray = [] := by
  intro self minimum maximum ray h
  unfold cylinderIntersect cylinderIntersectCaps
  simp [h]

/-- Witness for C9: a ray straight up the bore misses the open cylinder. -/
theorem open_cylinder_bore_miss_witness :
    cylinderIntersect cylC9 (.fin 1) (.fin 2) false rayC9 = [] :=
  open_cylinder_bore_miss cylC9 (.fin 1) (.fin 2) rayC9 (by decide)

/-- C10: `divide` on any shape that is not a group is a no-op: the shape,
the parent registry and the id counter all come back unchanged, for every
threshold. -/
theorem divide_non_group_noop :
    ∀ (s : Shape) (threshold : Nat) (reg : List Shape) (ctr : Int),
      s.isGroup = false →
      Shape.divide s threshold reg ctr = (s, reg, ctr) := by
  intro s threshold reg ctr h
  unfold Shape.divide Shape.divideFuel
  cases s <;> simp_all [Shape.isGroup]

/-- Witness for C10: dividing a sphere changes nothing. -/
theorem divide_non_group_noop_witness :
    Shape.divide sph1 4 [] 0 = (sph1, [], 0) :=
  divide_non_group_noop sph1 4 [] 0 (by decide)

end RT
